import Mathlib

/-!
Verification of the disc-identification core of the ODE artwork downloader.

This file gives a shallow embedding, in Lean, of the Rust modules under
`src/disc/` (reader.rs, iso9660.rs, apm.rs, hfs.rs, hfsplus.rs, toc.rs,
bincue.rs, chd.rs and the `browse` submodule), and proves properties of the
embedded definitions.

Modelling conventions, used throughout:

* Rust byte buffers (`[u8]`, `Vec<u8>`) are `List Nat`, each element a byte
  value.  Rust `String` values are modelled as `List Nat` of their UTF-8
  bytes (`String::len` is byte length, matching `List.length`); where the
  source lossily decodes bytes (`from_utf8_lossy`) the model keeps the raw
  bytes, which is faithful for the ASCII data these claims are about.
  A handful of pure-ASCII strings (file extensions, base64 output, MSF time
  stamps) are modelled as Lean `String`.
* A disc-image file is a `FileContent`: a size plus a byte function.  A
  `read_exact` of `len` bytes at `off` succeeds if and only if
  `off + len ≤ size`, mirroring `std::io::Read::read_exact`; seeks on an
  open file never fail in the model.  A plain `read` of a 64KB probe buffer
  returns `min size 65536` bytes.
* Machine integers are `Nat`; wrapping (release-mode overflow, `as` casts)
  is written with an explicit `% 2^w` exactly where the source can wrap.
* Fallible Rust functions returning `Result` are embedded as `Except`.
  Rust slice-index panics are modelled as `Except.error` where they are
  reachable, and noted where they are excluded by hypotheses.
-/

/-- Number of values of a 32-bit machine integer; used for wrapping
arithmetic and `as u32` casts. -/
def U32SIZE : Nat := 4294967296

/-- Number of values of a byte. -/
def U8SIZE : Nat := 256

/-- Big-endian 16-bit read from a byte list, as in
`u16::from_be_bytes([l[i], l[i+1]])`.  Out-of-range indices read as 0;
every use below is guarded by the same bounds checks as the source. -/
def beU16 (l : List Nat) (i : Nat) : Nat :=
  l.getD i 0 * 256 + l.getD (i + 1) 0

/-- Big-endian 32-bit read from a byte list, as in `u32::from_be_bytes`. -/
def beU32 (l : List Nat) (i : Nat) : Nat :=
  ((l.getD i 0 * 256 + l.getD (i + 1) 0) * 256 + l.getD (i + 2) 0) * 256 +
    l.getD (i + 3) 0

/-- Big-endian 64-bit read from a byte list, as in `u64::from_be_bytes`. -/
def beU64 (l : List Nat) (i : Nat) : Nat :=
  beU32 l i * U32SIZE + beU32 l (i + 4)

/-- Big-endian bytes of a 32-bit value, as in `u32::to_be_bytes`. -/
def natToBE4 (n : Nat) : List Nat :=
  [n / 16777216 % 256, n / 65536 % 256, n / 256 % 256, n % 256]

/-- Remove the longest suffix whose bytes all satisfy `p`
(`str::trim_end_matches` at byte level). -/
def dropTrailing (p : Nat → Bool) (l : List Nat) : List Nat :=
  (l.reverse.dropWhile p).reverse

/-- ASCII whitespace test used to model `str::trim`. -/
def isWsByte (b : Nat) : Bool :=
  b = 9 || b = 10 || b = 11 || b = 12 || b = 13 || b = 32

/-- Model of `str::trim` on UTF-8 bytes: strip whitespace from both ends. -/
def trimBytes (l : List Nat) : List Nat :=
  dropTrailing isWsByte (l.dropWhile isWsByte)

/-- ASCII decimal digit test, as in `char::is_ascii_digit`. -/
def isDigitByte (b : Nat) : Bool := 48 ≤ b && b ≤ 57

/-- The contents of a disc-image file: its length in bytes and the byte at
each offset (offsets at or beyond `size` are never read by the model). -/
structure FileContent where
  size : Nat
  byte : Nat → Nat

/-- Model of `Read::read_exact` at an absolute offset: returns exactly
`len` bytes, or fails when the file is too short. -/
def readExact (c : FileContent) (off len : Nat) : Except String (List Nat) :=
  if off + len ≤ c.size then
    .ok ((List.range len).map fun i => c.byte (off + i))
  else
    .error "failed to fill whole buffer"

theorem readExact_ok_iff (c : FileContent) (off len : Nat) :
    (∃ l, readExact c off len = .ok l) ↔ off + len ≤ c.size := by
  unfold readExact
  split <;> simp_all

theorem readExact_length (c : FileContent) (off len : Nat) (l : List Nat)
    (h : readExact c off len = .ok l) : l.length = len := by
  unfold readExact at h
  split at h
  · injection h with h
    subst h
    simp
  · cases h

/-- Decidable equality for `Except`, needed to evaluate embedded results
on concrete inputs. -/
instance {e a : Type} [DecidableEq e] [DecidableEq a] :
    DecidableEq (Except e a) := fun x y =>
  match x, y with
  | .ok u, .ok v =>
      if h : u = v then isTrue (by rw [h])
      else isFalse (by intro hc; injection hc; contradiction)
  | .error u, .error v =>
      if h : u = v then isTrue (by rw [h])
      else isFalse (by intro hc; injection hc; contradiction)
  | .ok _, .error _ => isFalse (by intro hc; cases hc)
  | .error _, .ok _ => isFalse (by intro hc; cases hc)

/-! ## toc.rs — TOC data and disc identifiers -/

namespace Toc

/-- Frames per second of CD audio (`FRAMES_PER_SECOND`). -/
def FRAMES_PER_SECOND : Nat := 75

/-- Information about a single track (toc.rs `TrackInfo`): number (u8),
offset in frames (u32), and a type string such as "AUDIO". -/
structure TrackInfo where
  number : Nat
  offset : Nat
  track_type : String
deriving DecidableEq, Repr

end Toc

/-- TOC data for an audio CD (toc.rs `DiscTOC`). -/
structure DiscTOC where
  first_track : Nat
  last_track : Nat
  lead_out : Nat
  track_offsets : List Nat
deriving DecidableEq, Repr

/-- Model of `DiscTOC::from_tracks`: `None` on an empty list, otherwise
first/last track numbers, every offset biased by the fixed 150-frame
pregap, and lead-out = total length + 150 (both u32-wrapping). -/
def DiscTOC.from_tracks (tracks : List Toc.TrackInfo)
    (total_length_frames : Nat) : Option DiscTOC :=
  if tracks.isEmpty then none
  else
    match tracks.head?, tracks.getLast? with
    | some f, some l =>
        some { first_track := f.number
               last_track := l.number
               lead_out := (total_length_frames + 150) % U32SIZE
               track_offsets := tracks.map fun t => (t.offset + 150) % U32SIZE }
    | _, _ => none

/-! SHA-1, as used by the `sha1` crate the identifier calculation calls.
This is the standard FIPS 180-1 algorithm over byte messages. -/

/-- Left rotation of a 32-bit word by `s` bits. -/
def rotl32 (s x : Nat) : Nat :=
  ((x <<< s) % U32SIZE) ||| (x >>> (32 - s))

/-- SHA-1 round function for round `i`. -/
def sha1F (i b c d : Nat) : Nat :=
  if i < 20 then (b &&& c) ||| ((4294967295 ^^^ b) &&& d)
  else if i < 40 then b ^^^ c ^^^ d
  else if i < 60 then (b &&& c) ||| (b &&& d) ||| (c &&& d)
  else b ^^^ c ^^^ d

/-- SHA-1 round constant for round `i`. -/
def sha1K (i : Nat) : Nat :=
  if i < 20 then 0x5A827999
  else if i < 40 then 0x6ED9EBA1
  else if i < 60 then 0x8F1BBCDC
  else 0xCA62C1D6

/-- Extend a message schedule by `k` further words. -/
def sha1Extend : Nat → List Nat → List Nat
  | 0, w => w
  | k + 1, w =>
      sha1Extend k (w ++ [rotl32 1 (w.getD (w.length - 3) 0 ^^^
        w.getD (w.length - 8) 0 ^^^ w.getD (w.length - 14) 0 ^^^
        w.getD (w.length - 16) 0)])

/-- One SHA-1 compression step on the five-word state. -/
def sha1Step (w : List Nat) (st : Nat × Nat × Nat × Nat × Nat) (i : Nat) :
    Nat × Nat × Nat × Nat × Nat :=
  match st with
  | (a, b, c, d, e) =>
      ((rotl32 5 a + sha1F i b c d + e + sha1K i + w.getD i 0) % U32SIZE,
        a, rotl32 30 b, c, d)

/-- Process one 64-byte block, updating the five-word hash state. -/
def sha1Block (h : Nat × Nat × Nat × Nat × Nat) (block : List Nat) :
    Nat × Nat × Nat × Nat × Nat :=
  let w := sha1Extend 64 ((List.range 16).map fun i => beU32 block (4 * i))
  match (List.range 80).foldl (sha1Step w) h with
  | (a, b, c, d, e) =>
      match h with
      | (h0, h1, h2, h3, h4) =>
          ((h0 + a) % U32SIZE, (h1 + b) % U32SIZE, (h2 + c) % U32SIZE,
            (h3 + d) % U32SIZE, (h4 + e) % U32SIZE)

/-- Big-endian 8-byte encoding of the bit length, for SHA-1 padding. -/
def natToBE8 (n : Nat) : List Nat :=
  [n >>> 56 % 256, n >>> 48 % 256, n >>> 40 % 256, n >>> 32 % 256,
    n >>> 24 % 256, n >>> 16 % 256, n >>> 8 % 256, n % 256]

/-- SHA-1 message padding: append 0x80, zero bytes to 56 mod 64, then the
64-bit big-endian bit length. -/
def sha1Pad (msg : List Nat) : List Nat :=
  msg ++ [128] ++ List.replicate ((120 - (msg.length + 1) % 64) % 64) 0 ++
    natToBE8 (msg.length * 8)

/-- Split a list into `n` 64-byte blocks. -/
def toBlocks : Nat → List Nat → List (List Nat)
  | 0, _ => []
  | n + 1, l => l.take 64 :: toBlocks n (l.drop 64)

/-- SHA-1 initial state. -/
def sha1Init : Nat × Nat × Nat × Nat × Nat :=
  (0x67452301, 0xEFCDAB89, 0x98BADCFE, 0x10325476, 0xC3D2E1F0)

/-- Serialize the five-word SHA-1 state as 20 big-endian bytes. -/
def sha1Out (p : Nat × Nat × Nat × Nat × Nat) : List Nat :=
  natToBE4 p.1 ++ natToBE4 p.2.1 ++ natToBE4 p.2.2.1 ++
    natToBE4 p.2.2.2.1 ++ natToBE4 p.2.2.2.2

/-- SHA-1 digest of a byte message, as 20 bytes. -/
def sha1Bytes (msg : List Nat) : List Nat :=
  sha1Out (((toBlocks ((sha1Pad msg).length / 64) (sha1Pad msg)).foldl
    sha1Block sha1Init))

/-! URL-safe base64 without padding, as in the `base64` crate engine
`URL_SAFE_NO_PAD` (RFC 4648 with `-` and `_`, no `=` padding). -/

/-- Character of the URL-safe base64 alphabet at index `n` (0 ≤ n < 64). -/
def b64UrlChar (n : Nat) : Char :=
  if n < 26 then Char.ofNat (65 + n)
  else if n < 52 then Char.ofNat (97 + (n - 26))
  else if n < 62 then Char.ofNat (48 + (n - 52))
  else if n = 62 then Char.ofNat 45
  else Char.ofNat 95

/-- Encode bytes three at a time into base64 characters, without padding. -/
def b64UrlChars : List Nat → List Char
  | [] => []
  | [b1] => [b64UrlChar (b1 / 4), b64UrlChar (b1 % 4 * 16)]
  | [b1, b2] =>
      [b64UrlChar (b1 / 4), b64UrlChar (b1 % 4 * 16 + b2 / 16),
        b64UrlChar (b2 % 16 * 4)]
  | b1 :: b2 :: b3 :: rest =>
      b64UrlChar (b1 / 4) :: b64UrlChar (b1 % 4 * 16 + b2 / 16) ::
        b64UrlChar (b2 % 16 * 4 + b3 / 64) :: b64UrlChar (b3 % 64) ::
        b64UrlChars rest

/-- URL-safe unpadded base64 encoding of a byte list. -/
def base64UrlNoPad (bytes : List Nat) : String :=
  String.mk (b64UrlChars bytes)

/-- The binary record hashed by `DiscTOC::calculate_musicbrainz_id`:
1 byte first track, 1 byte last track, 4-byte big-endian lead-out, then 99
four-byte big-endian offset slots (slot `i` holds `track_offsets[i]` when
present, else 0), exactly as the `for i in 0..99` loop builds `data`. -/
def DiscTOC.musicbrainzData (toc : DiscTOC) : List Nat :=
  [toc.first_track, toc.last_track] ++ natToBE4 toc.lead_out ++
    ((List.range 99).map fun i => natToBE4 (toc.track_offsets.getD i 0)).flatten

/-- Model of `DiscTOC::calculate_musicbrainz_id`: SHA-1 over the fixed
binary record, encoded with unpadded URL-safe base64.  The embedding is a
pure function, so determinism across runs holds by construction. -/
def DiscTOC.calculate_musicbrainz_id (toc : DiscTOC) : String :=
  base64UrlNoPad (sha1Bytes toc.musicbrainzData)

theorem sha1Bytes_length (msg : List Nat) : (sha1Bytes msg).length = 20 := by
  simp [sha1Bytes, sha1Out, natToBE4]

theorem range_map_getD {α : Type} (f : Nat → α) (l : List Nat) (n : Nat)
    (h : l.length ≤ n) :
    (List.range n).map (fun i => f (l.getD i 0)) =
      l.map f ++ List.replicate (n - l.length) (f 0) := by
  induction l generalizing n with
  | nil =>
      simp [List.map_const']
  | cons a t ih =>
      match n with
      | 0 => exact absurd h (by simp)
      | m + 1 =>
          rw [List.range_succ_eq_map]
          simp only [List.map_cons, List.map_map, List.getD_cons_zero]
          have : ((fun i => f ((a :: t).getD i 0)) ∘ Nat.succ) =
              fun i => f (t.getD i 0) := by
            funext i
            simp [Function.comp]
          rw [this, ih m (by simpa using h)]
          simp

theorem flatten_replicate_be4zero (k : Nat) :
    (List.replicate k (natToBE4 0)).flatten = List.replicate (k * 4) 0 := by
  induction k with
  | zero => simp
  | succ n ih =>
      rw [List.replicate_succ, List.flatten_cons, ih,
        show (n + 1) * 4 = 4 + n * 4 by ring, List.replicate_add]
      rfl

theorem musicbrainzData_layout (toc : DiscTOC)
    (h : toc.track_offsets.length ≤ 99) :
    toc.musicbrainzData =
      [toc.first_track, toc.last_track] ++ natToBE4 toc.lead_out ++
        ((toc.track_offsets.map natToBE4).flatten ++
          List.replicate ((99 - toc.track_offsets.length) * 4) 0) := by
  unfold DiscTOC.musicbrainzData
  rw [range_map_getD natToBE4 _ 99 h, List.flatten_append,
    flatten_replicate_be4zero]

/-- Claim C2: for every TOC with at most 99 track offsets,
`calculate_musicbrainz_id` SHA-1-hashes exactly the byte sequence
1-byte first track, 1-byte last track, 4-byte big-endian lead-out, then
exactly 99 four-byte big-endian slots holding the track offsets followed by
zeros, and returns the 20-byte digest in unpadded URL-safe base64.  The
embedded function is pure, so the result is deterministic across runs. -/
theorem claim_C2_musicbrainz_id (toc : DiscTOC)
    (h : toc.track_offsets.length ≤ 99) :
    DiscTOC.calculate_musicbrainz_id toc =
      base64UrlNoPad (sha1Bytes
        ([toc.first_track, toc.last_track] ++ natToBE4 toc.lead_out ++
          ((toc.track_offsets.map natToBE4).flatten ++
            List.replicate ((99 - toc.track_offsets.length) * 4) 0))) ∧
    (sha1Bytes toc.musicbrainzData).length = 20 := by
  constructor
  · unfold DiscTOC.calculate_musicbrainz_id
    rw [musicbrainzData_layout toc h]
  · exact sha1Bytes_length _

/-- A concrete TOC: tracks 1 at 150 frames and 2 at 19051 frames, lead-out
41150, as in the specification's determinism example. -/
def demoTOC : DiscTOC :=
  { first_track := 1, last_track := 2, lead_out := 41150,
    track_offsets := [150, 19051] }

/-- Witness for claim C2 at the concrete two-track TOC. -/
theorem claim_C2_musicbrainz_id_witness :
    DiscTOC.calculate_musicbrainz_id demoTOC =
      base64UrlNoPad (sha1Bytes
        ([demoTOC.first_track, demoTOC.last_track] ++
          natToBE4 demoTOC.lead_out ++
          ((demoTOC.track_offsets.map natToBE4).flatten ++
            List.replicate ((99 - demoTOC.track_offsets.length) * 4) 0))) ∧
    (sha1Bytes demoTOC.musicbrainzData).length = 20 :=
  claim_C2_musicbrainz_id demoTOC (by decide)

/-! ## iso9660.rs — Primary Volume Descriptor -/

/-- ISO 9660 sector size (`SECTOR_SIZE`). -/
def SECTOR_SIZE : Nat := 2048

/-- Byte offset of the PVD from the start of the disc (`PVD_OFFSET`). -/
def PVD_OFFSET : Nat := 16 * SECTOR_SIZE

/-- Trailing-pad test of `extract_string`: a byte is trimmed when it is a
space or a NUL. -/
def isPadByte (b : Nat) : Bool := b = 32 || b = 0

/-- Primary Volume Descriptor (iso9660.rs `PrimaryVolumeDescriptor`); the
five identifier fields are byte strings. -/
structure PrimaryVolumeDescriptor where
  volume_id : List Nat
  system_id : List Nat
  volume_set_id : List Nat
  publisher_id : List Nat
  application_id : List Nat
deriving DecidableEq, Repr

namespace PrimaryVolumeDescriptor

/-- Model of `extract_string`: trim trailing spaces and NULs (the lossy
UTF-8 decode is modelled as the identity on bytes). -/
def extract_string (bytes : List Nat) : List Nat :=
  dropTrailing isPadByte bytes

/-- Model of `PrimaryVolumeDescriptor::parse` on a raw sector: validate
length, type byte 1, identifier "CD001" at bytes 1..6, version byte 1, then
extract the five fixed-width fields. -/
def parse (sector : List Nat) : Except String PrimaryVolumeDescriptor :=
  if sector.length < SECTOR_SIZE then
    .error "Sector too small"
  else if sector.getD 0 0 ≠ 1 then
    .error "Not a Primary Volume Descriptor"
  else if (sector.drop 1).take 5 ≠ [67, 68, 48, 48, 49] then
    .error "Invalid ISO 9660 identifier (expected CD001)"
  else if sector.getD 6 0 ≠ 1 then
    .error "Unsupported PVD version"
  else
    .ok { system_id := extract_string ((sector.drop 8).take 32)
          volume_id := extract_string ((sector.drop 40).take 32)
          volume_set_id := extract_string ((sector.drop 190).take 128)
          publisher_id := extract_string ((sector.drop 318).take 128)
          application_id := extract_string ((sector.drop 574).take 128) }

/-- Model of `PrimaryVolumeDescriptor::read_from`: seek to the PVD offset,
read one full sector, parse it.  A short read is the
"Failed to read PVD sector" error. -/
def read_from (c : FileContent) : Except String PrimaryVolumeDescriptor :=
  match readExact c PVD_OFFSET SECTOR_SIZE with
  | .error e => .error ("Failed to read PVD sector: " ++ e)
  | .ok sector => parse sector

end PrimaryVolumeDescriptor

/-- Claim C5: for every 2048-byte sector, (a) when the type byte is 1, the
identifier is "CD001" and the version byte is 1, parsing succeeds and the
volume id is the 32-byte field at offset 40 with trailing spaces and NULs
stripped; (b) when in addition that field is all spaces, the volume id is
empty; (c) when any of the three validation bytes differs, parsing fails. -/
theorem claim_C5_pvd_parse (sector : List Nat)
    (hlen : sector.length = 2048) :
    ((sector.getD 0 0 = 1 ∧ (sector.drop 1).take 5 = [67, 68, 48, 48, 49] ∧
        sector.getD 6 0 = 1) →
      (∃ pvd, PrimaryVolumeDescriptor.parse sector = .ok pvd ∧
        pvd.volume_id =
          dropTrailing isPadByte ((sector.drop 40).take 32)) ∧
      ((∀ b ∈ (sector.drop 40).take 32, b = 32) →
        ∃ pvd, PrimaryVolumeDescriptor.parse sector = .ok pvd ∧
          pvd.volume_id = [])) ∧
    (¬(sector.getD 0 0 = 1 ∧ (sector.drop 1).take 5 = [67, 68, 48, 48, 49] ∧
        sector.getD 6 0 = 1) →
      ∃ e, PrimaryVolumeDescriptor.parse sector = .error e) := by
  unfold PrimaryVolumeDescriptor.parse
  rw [hlen]
  constructor
  · rintro ⟨h0, h5, h6⟩
    rw [if_neg (by simp [SECTOR_SIZE]), if_neg (by rw [h0]; simp),
      if_neg (by rw [h5]; simp), if_neg (by rw [h6]; simp)]
    refine ⟨⟨_, rfl, rfl⟩, fun hsp => ⟨_, rfl, ?_⟩⟩
    unfold PrimaryVolumeDescriptor.extract_string dropTrailing
    rw [List.dropWhile_eq_nil_iff.mpr]
    · rfl
    · intro b hb
      have := hsp b (by simpa using hb)
      simp [this, isPadByte]
  · intro hbad
    rw [if_neg (by simp [SECTOR_SIZE])]
    by_cases h0 : sector.getD 0 0 = 1
    · by_cases h5 : (sector.drop 1).take 5 = [67, 68, 48, 48, 49]
      · by_cases h6 : sector.getD 6 0 = 1
        · exact absurd ⟨h0, h5, h6⟩ hbad
        · exact ⟨_, by rw [if_neg (by rw [h0]; simp),
            if_neg (by rw [h5]; simp), if_pos h6]⟩
      · exact ⟨_, by rw [if_neg (by rw [h0]; simp), if_pos h5]⟩
    · exact ⟨_, by rw [if_pos h0]⟩

/-- A concrete valid PVD sector: correct type, identifier and version
bytes, volume id "TTTTTTTT" (eight bytes 84) padded with spaces. -/
def pvdTestSector : List Nat :=
  (List.range 2048).map fun i =>
    if i = 0 then 1
    else if i = 1 then 67
    else if i = 2 then 68
    else if i = 3 then 48
    else if i = 4 then 48
    else if i = 5 then 49
    else if i = 6 then 1
    else if 40 ≤ i ∧ i < 48 then 84
    else if 48 ≤ i ∧ i < 72 then 32
    else 0

set_option maxRecDepth 40000 in
/-- Witness for claim C5 at the concrete valid sector. -/
theorem claim_C5_pvd_parse_witness :
    (∃ pvd, PrimaryVolumeDescriptor.parse pvdTestSector = .ok pvd ∧
      pvd.volume_id =
        dropTrailing isPadByte ((pvdTestSector.drop 40).take 32)) ∧
    ((∀ b ∈ (pvdTestSector.drop 40).take 32, b = 32) →
      ∃ pvd, PrimaryVolumeDescriptor.parse pvdTestSector = .ok pvd ∧
        pvd.volume_id = []) :=
  (claim_C5_pvd_parse pvdTestSector (by simp [pvdTestSector])).1 (by decide)

/-! ## apm.rs — Apple Partition Map -/

/-- Block size of the Apple Partition Map (`APM_BLOCK_SIZE`). -/
def APM_BLOCK_SIZE : Nat := 512

/-- Apple Partition Map entry (apm.rs `PartitionEntry`). -/
structure PartitionEntry where
  signature : Nat
  map_entries : Nat
  start_block : Nat
  block_count : Nat
  name : List Nat
  partition_type : List Nat
deriving DecidableEq, Repr

namespace PartitionEntry

/-- Model of `PartitionEntry::parse` on a 512-byte block: validate length
and the "PM" signature, then extract the fixed-offset fields; the two
32-byte strings are NUL- and whitespace-trimmed. -/
def parse (data : List Nat) : Except String PartitionEntry :=
  if data.length < 512 then .error "Partition entry data too short"
  else
    if beU16 data 0 ≠ 0x504D then .error "Invalid partition signature"
    else
      .ok { signature := beU16 data 0
            map_entries := beU32 data 4
            start_block := beU32 data 8
            block_count := beU32 data 12
            name := trimBytes (dropTrailing (· = 0) ((data.drop 16).take 32))
            partition_type :=
              trimBytes (dropTrailing (· = 0) ((data.drop 48).take 32)) }

/-- ASCII bytes of `"Apple_HFS"`. -/
def appleHfsTag : List Nat := [65, 112, 112, 108, 101, 95, 72, 70, 83]

/-- ASCII bytes of `"Apple_HFSX"`. -/
def appleHfsxTag : List Nat := appleHfsTag ++ [88]

/-- Model of `PartitionEntry::is_hfs`: the type string starts with
"Apple_HFS" or equals "Apple_HFSX". -/
def is_hfs (p : PartitionEntry) : Bool :=
  appleHfsTag.isPrefixOf p.partition_type || p.partition_type = appleHfsxTag

end PartitionEntry

/-- Loop of `parse_partition_map` over entries 2..=map_entries: a read
failure aborts with an error, an entry-parse failure breaks and keeps the
entries collected so far. -/
def apmEntriesLoop (c : FileContent) :
    Nat → Nat → List PartitionEntry → Except String (List PartitionEntry)
  | 0, _, acc => .ok acc
  | fuel + 1, i, acc =>
      match readExact c (i * APM_BLOCK_SIZE) 512 with
      | .error e => .error ("Failed to read partition entry: " ++ e)
      | .ok d =>
          match PartitionEntry.parse d with
          | .ok entry => apmEntriesLoop c fuel (i + 1) (acc ++ [entry])
          | .error _ => .ok acc

/-- Model of `parse_partition_map`: check the "ER" driver-descriptor
signature in block 0, parse the first entry in block 1, read its total
entry count, then collect the remaining entries. -/
def parse_partition_map (c : FileContent) :
    Except String (List PartitionEntry) :=
  match readExact c 0 512 with
  | .error e => .error ("Failed to read DDM: " ++ e)
  | .ok ddm =>
      if beU16 ddm 0 ≠ 0x4552 then .error "Invalid DDM signature"
      else
        match readExact c APM_BLOCK_SIZE 512 with
        | .error e => .error ("Failed to read first partition entry: " ++ e)
        | .ok firstData =>
            match PartitionEntry.parse firstData with
            | .error e => .error e
            | .ok first =>
                apmEntriesLoop c (first.map_entries - 1) 2 [first]

/-- Search loop of `find_hfs_partition_offset` over the parsed entries. -/
def findFirstHfs : List PartitionEntry → Except String Nat
  | [] => .error "No HFS/HFS+ partition found in partition map"
  | p :: rest =>
      if p.is_hfs then .ok (p.start_block * APM_BLOCK_SIZE)
      else findFirstHfs rest

/-- Model of `find_hfs_partition_offset`: parse the partition map and
return `start_block * 512` of the first HFS-typed entry. -/
def find_hfs_partition_offset (c : FileContent) : Except String Nat :=
  match parse_partition_map c with
  | .error e => .error e
  | .ok partitions => findFirstHfs partitions

theorem findFirstHfs_eq_find (l : List PartitionEntry) :
    findFirstHfs l =
      match l.find? PartitionEntry.is_hfs with
      | some p => .ok (p.start_block * APM_BLOCK_SIZE)
      | none => .error "No HFS/HFS+ partition found in partition map" := by
  induction l with
  | nil => rfl
  | cons p rest ih =>
      by_cases hp : p.is_hfs
      · simp [findFirstHfs, List.find?_cons, hp]
      · simp only [findFirstHfs, List.find?_cons]
        rw [if_neg hp, ih]
        cases hfind : rest.find? PartitionEntry.is_hfs <;>
          simp [hp, hfind]

/-- Claim C6: given that the partition map parses to `ps`, (a) the offset
lookup returns `start_block * 512` of the entry `find?` locates (the first
entry whose type begins with "Apple_HFS" or equals "Apple_HFSX"); (b) with
zero matching entries it errors; (c) with exactly one matching entry it
returns that entry's `start_block * 512`. -/
theorem claim_C6_hfs_partition_offset (c : FileContent)
    (ps : List PartitionEntry) (h : parse_partition_map c = .ok ps) :
    (∀ p, ps.find? PartitionEntry.is_hfs = some p →
      find_hfs_partition_offset c = .ok (p.start_block * 512)) ∧
    ((∀ p ∈ ps, ¬ p.is_hfs) →
      ∃ e, find_hfs_partition_offset c = .error e) ∧
    (∀ p ∈ ps, p.is_hfs → (∀ q ∈ ps, q.is_hfs → q = p) →
      find_hfs_partition_offset c = .ok (p.start_block * 512)) := by
  have hbase : find_hfs_partition_offset c = findFirstHfs ps := by
    unfold find_hfs_partition_offset
    rw [h]
  refine ⟨fun p hp => ?_, fun hnone => ?_, fun p hmem hhfs huniq => ?_⟩
  · rw [hbase, findFirstHfs_eq_find, hp]
    rfl
  · rw [hbase, findFirstHfs_eq_find,
      List.find?_eq_none.mpr (by simpa using hnone)]
    exact ⟨_, rfl⟩
  · have hsome : (ps.find? PartitionEntry.is_hfs).isSome :=
      List.find?_isSome.mpr ⟨p, hmem, hhfs⟩
    obtain ⟨q, hq⟩ := Option.isSome_iff_exists.mp hsome
    have hqp : q = p :=
      huniq q (List.mem_of_find?_eq_some hq) (List.find?_some hq)
    rw [hbase, findFirstHfs_eq_find, hq, hqp]
    rfl

/-- A concrete 1024-byte image holding an Apple Partition Map whose single
entry has type "Apple_HFS" and start block 10. -/
def apmTestContent : FileContent :=
  { size := 1024
    byte := fun i =>
      if i = 0 then 69
      else if i = 1 then 82
      else if i = 512 then 80
      else if i = 513 then 77
      else if i = 519 then 1
      else if i = 523 then 10
      else if i = 560 then 65
      else if i = 561 then 112
      else if i = 562 then 112
      else if i = 563 then 108
      else if i = 564 then 101
      else if i = 565 then 95
      else if i = 566 then 72
      else if i = 567 then 70
      else if i = 568 then 83
      else 0 }

/-- The partition entry parsed from `apmTestContent`. -/
def apmTestEntry : PartitionEntry :=
  { signature := 20557, map_entries := 1, start_block := 10,
    block_count := 0, name := [],
    partition_type := PartitionEntry.appleHfsTag }

set_option maxRecDepth 40000 in
/-- Witness for claim C6 at the concrete one-entry partition map. -/
theorem claim_C6_hfs_partition_offset_witness :
    find_hfs_partition_offset apmTestContent =
      .ok (apmTestEntry.start_block * 512) :=
  (claim_C6_hfs_partition_offset apmTestContent [apmTestEntry]
    (by rfl)).1 apmTestEntry (by rfl)

/-! ## hfs.rs — classic-filesystem Master Directory Block -/

/-- HFS Master Directory Block (hfs.rs `MasterDirectoryBlock`). -/
structure MasterDirectoryBlock where
  signature : Nat
  create_date : Nat
  modify_date : Nat
  attributes : Nat
  root_file_count : Nat
  root_dir_count : Nat
  alloc_blocks : Nat
  alloc_block_size : Nat
  volume_name : List Nat
deriving DecidableEq, Repr

namespace MasterDirectoryBlock

/-- Model of `MasterDirectoryBlock::parse_from_current_position` reading
162 bytes at the absolute position `pos`: validate the "BD" signature and
the Pascal-string name length, then extract the fields. -/
def parse_from_current_position (c : FileContent) (pos : Nat) :
    Except String MasterDirectoryBlock :=
  match readExact c pos 162 with
  | .error e => .error ("Failed to read MDB: " ++ e)
  | .ok buffer =>
      if beU16 buffer 0 ≠ 0x4244 then .error "Invalid HFS signature"
      else
        let name_length := buffer.getD 36 0
        if name_length > 27 then .error "Invalid volume name length"
        else
          .ok { signature := beU16 buffer 0
                create_date := beU32 buffer 2
                modify_date := beU32 buffer 6
                attributes := beU16 buffer 10
                root_file_count := beU16 buffer 12
                root_dir_count := beU16 buffer 16
                alloc_blocks := beU16 buffer 18
                alloc_block_size := beU32 buffer 20
                volume_name :=
                  trimBytes ((buffer.drop 37).take name_length) }

/-- Model of `MasterDirectoryBlock::parse`: seek to byte 1024 and parse. -/
def parse (c : FileContent) : Except String MasterDirectoryBlock :=
  parse_from_current_position c 1024

/-- Model of `MasterDirectoryBlock::is_valid`. -/
def is_valid (m : MasterDirectoryBlock) : Bool :=
  m.signature = 0x4244 && !m.volume_name.isEmpty

end MasterDirectoryBlock

/-! ## hfsplus.rs — extended-filesystem volume header -/

/-- HFS+ extent descriptor (hfsplus.rs `HfsPlusExtent`). -/
structure HfsPlusExtent where
  start_block : Nat
  block_count : Nat
deriving DecidableEq, Repr

/-- HFS+ volume header (hfsplus.rs `HfsPlusVolumeHeader`). -/
structure HfsPlusVolumeHeader where
  signature : Nat
  version : Nat
  attributes : Nat
  last_mounted_version : Nat
  journal_info_block : Nat
  create_date : Nat
  modify_date : Nat
  backup_date : Nat
  checked_date : Nat
  file_count : Nat
  folder_count : Nat
  block_size : Nat
  total_blocks : Nat
  free_blocks : Nat
  catalog_file_extent : HfsPlusExtent
deriving DecidableEq, Repr

/-- Abstraction of `extract_volume_name_from_catalog` (hfsplus.rs): the
indirect catalog B-tree lookup of the root folder thread record, as a
function of the parsed header and the volume start offset.  The claims
below quantify over it, so they hold for the concrete subroutine too. -/
def HfsPlusNameLookup : Type :=
  HfsPlusVolumeHeader → Nat → Except String (List Nat)

/-- ASCII bytes of the placeholder name `"HFS+ Volume"` used when the
catalog lookup fails. -/
def hfsPlusPlaceholderName : List Nat :=
  [72, 70, 83, 43, 32, 86, 111, 108, 117, 109, 101]

namespace HfsPlusVolumeHeader

/-- Model of `HfsPlusVolumeHeader::parse_from_current_position` reading 512
bytes at absolute position `pos`: validate one of the two accepted
signatures, extract the fields, then resolve the volume name through the
catalog lookup, degrading to the placeholder name on failure. -/
def parse_from_current_position (lookup : HfsPlusNameLookup)
    (c : FileContent) (pos : Nat) :
    Except String (HfsPlusVolumeHeader × List Nat) :=
  match readExact c pos 512 with
  | .error e => .error ("Failed to read HFS+ header: " ++ e)
  | .ok buffer =>
      if beU16 buffer 0 ≠ 0x482B ∧ beU16 buffer 0 ≠ 0x4858 then
        .error "Invalid HFS+ signature"
      else
        let header : HfsPlusVolumeHeader :=
          { signature := beU16 buffer 0
            version := beU16 buffer 2
            attributes := beU32 buffer 4
            last_mounted_version := beU32 buffer 8
            journal_info_block := beU32 buffer 12
            create_date := beU32 buffer 16
            modify_date := beU32 buffer 20
            backup_date := beU32 buffer 24
            checked_date := beU32 buffer 28
            file_count := beU32 buffer 32
            folder_count := beU32 buffer 36
            block_size := beU32 buffer 40
            total_blocks := beU32 buffer 44
            free_blocks := beU32 buffer 48
            catalog_file_extent :=
              { start_block := beU32 buffer 128
                block_count := beU32 buffer 132 } }
        let volume_name :=
          match lookup header (pos - 1024) with
          | .ok name => name
          | .error _ => hfsPlusPlaceholderName
        .ok (header, volume_name)

/-- Model of `HfsPlusVolumeHeader::parse`: seek to byte 1024 and parse. -/
def parse (lookup : HfsPlusNameLookup) (c : FileContent) :
    Except String (HfsPlusVolumeHeader × List Nat) :=
  parse_from_current_position lookup c 1024

/-- Model of `HfsPlusVolumeHeader::is_valid`. -/
def is_valid (h : HfsPlusVolumeHeader) : Bool :=
  (h.signature = 0x482B || h.signature = 0x4858) &&
    h.block_size > 0 && h.total_blocks > 0

end HfsPlusVolumeHeader

/-! ## formats.rs and identifier.rs — dispatch and identification types -/

/-- Supported disc image formats (formats.rs `DiscFormat`). -/
inductive DiscFormat
  | Iso
  | BinCue
  | Chd
  | MdsMdf
deriving DecidableEq, Repr

/-- ASCII model of `char::to_lowercase` on a single character. -/
def asciiLowerChar (ch : Char) : Char :=
  if 65 ≤ ch.toNat ∧ ch.toNat ≤ 90 then Char.ofNat (ch.toNat + 32) else ch

/-- ASCII model of `str::to_lowercase` (the recognized extensions are all
ASCII). -/
def lowerString (s : String) : String :=
  String.mk (s.data.map asciiLowerChar)

/-- Model of `DiscFormat::from_path` applied to the file extension
(`path.extension()?.to_str()?`, `none` when the path has no extension). -/
def DiscFormat.from_path (ext : Option String) : Option DiscFormat :=
  match ext with
  | none => none
  | some e =>
      let e := lowerString e
      if e = "iso" ∨ e = "toast" then some .Iso
      else if e = "bin" ∨ e = "cue" then some .BinCue
      else if e = "chd" then some .Chd
      else if e = "mds" ∨ e = "mdf" then some .MdsMdf
      else none

/-- Filesystem types (formats.rs `FilesystemType`). -/
inductive FilesystemType
  | Iso9660
  | Joliet
  | Udf
  | Hfs
  | HfsPlus
  | Unknown
deriving DecidableEq, Repr

/-- Identification confidence (identifier.rs `ConfidenceLevel`). -/
inductive ConfidenceLevel
  | Low
  | Medium
  | High
deriving DecidableEq, Repr

/-- Result of filename parsing (identifier.rs `ParsedFilename`).  The
regex-driven `parse_filename` itself is not embedded; the orchestrator
model takes its result as an argument. -/
structure ParsedFilename where
  title : List Nat
  original : List Nat
  region : Option (List Nat)
  disc_number : Option Nat
  serial : Option (List Nat)
  version : Option (List Nat)
deriving DecidableEq, Repr

/-- Model of `normalize_volume_label`: replace underscores with spaces and
collapse whitespace runs (split_whitespace + join with single spaces). -/
def normalize_volume_label (label : List Nat) : List Nat :=
  ((((label.map fun b => if b = 95 then 32 else b).splitOnP
      fun b => isWsByte b).filter fun s => !s.isEmpty).intersperse
    [32]).flatten

/-! ## reader.rs — orchestrator -/

/-- Detected disc structure (reader.rs `DiscStructure`). -/
inductive DiscStructure
  | Iso9660
  | ApplePartitionMap
  | HfsDirectly
  | Unknown
deriving DecidableEq, Repr

/-- Errors of disc reading (reader.rs `DiscError`).  Path payloads are
dropped; message payloads are kept. -/
inductive DiscError
  | FileNotFound
  | UnsupportedFormat (ext : String)
  | IoError (msg : String)
  | ParseError (msg : String)
  | ChdError (msg : String)
deriving DecidableEq, Repr

/-- Information extracted from a disc image (reader.rs `DiscInfo`, minus
the `path` field, which the model keeps outside). -/
structure DiscInfo where
  format : DiscFormat
  filesystem : FilesystemType
  volume_label : Option (List Nat)
  parsed_filename : ParsedFilename
  title : List Nat
  confidence : ConfidenceLevel
  pvd : Option PrimaryVolumeDescriptor
  toc : Option DiscTOC
  hfs_mdb : Option MasterDirectoryBlock
  hfsplus_header : Option HfsPlusVolumeHeader
deriving DecidableEq, Repr

namespace DiscReader

/-- Model of `DiscReader::detect_disc_structure`: read up to 64KB
(`bytesRead = min size 65536`, the probe buffer is zero beyond that) and
test the signatures in source order, requiring at least 2048 bytes. -/
def detect_disc_structure (c : FileContent) : DiscStructure :=
  let bytesRead := min c.size 65536
  let buffer := fun i => if i < bytesRead then c.byte i else 0
  if bytesRead < 2048 then .Unknown
  else if 512 ≤ bytesRead ∧ buffer 0 = 0x45 ∧ buffer 1 = 0x52 then
    .ApplePartitionMap
  else if 1026 ≤ bytesRead ∧ buffer 1024 = 0x42 ∧ buffer 1025 = 0x44 then
    .HfsDirectly
  else if 1026 ≤ bytesRead ∧ ((buffer 1024 = 0x48 ∧ buffer 1025 = 0x2B) ∨
      (buffer 1024 = 0x48 ∧ buffer 1025 = 0x58)) then
    .HfsDirectly
  else if 32774 ≤ bytesRead ∧ buffer 32768 = 0x01 ∧
      buffer 32769 = 67 ∧ buffer 32770 = 68 ∧ buffer 32771 = 48 ∧
      buffer 32772 = 48 ∧ buffer 32773 = 49 then
    .Iso9660
  else .Unknown

/-- Result tuple of `try_hfs_detection`: filesystem kind, optional label,
and the optional parsed structures. -/
def HfsDetection : Type :=
  FilesystemType × Option (List Nat) × Option PrimaryVolumeDescriptor ×
    Option MasterDirectoryBlock × Option HfsPlusVolumeHeader

/-- Classic-HFS fallback at the end of `try_hfs_detection`: try the MDB at
the partition's header offset; an invalid or unparsable MDB is the
"no HFS/HFS+ filesystem detected" error. -/
def tryHfsClassicAt (c : FileContent) (header_offset : Nat) :
    Except String HfsDetection :=
  match MasterDirectoryBlock.parse_from_current_position c header_offset with
  | .ok mdb =>
      if mdb.is_valid then
        .ok (.Hfs, some mdb.volume_name, none, some mdb, none)
      else .error "No HFS/HFS+ filesystem detected"
  | .error _ => .error "No HFS/HFS+ filesystem detected"

/-- Model of `DiscReader::try_hfs_detection`: locate an HFS partition via
the partition map (offset 0 when there is none), then try the HFS+ header
and fall back to the classic MDB at partition offset + 1024. -/
def try_hfs_detection (lookup : HfsPlusNameLookup) (c : FileContent) :
    Except String HfsDetection :=
  let partition_offset :=
    match find_hfs_partition_offset c with
    | .ok offset => offset
    | .error _ => 0
  let header_offset := partition_offset + 1024
  match HfsPlusVolumeHeader.parse_from_current_position lookup c
      header_offset with
  | .ok (header, volume_name) =>
      if header.is_valid then
        .ok (.HfsPlus, some volume_name, none, none, some header)
      else tryHfsClassicAt c header_offset
  | .error _ => tryHfsClassicAt c header_offset

/-- Tail of `DiscReader::read_iso` (reader.rs:244-271): pick title and
confidence from the volume label when it is longer than 2 bytes and not
all ASCII digits (High), otherwise use the filename-derived title (Low),
and build the record. -/
def isoInfoFrom (pf : ParsedFilename) (d : HfsDetection)
    (pvd : Option PrimaryVolumeDescriptor) : DiscInfo :=
  let tc : List Nat × ConfidenceLevel :=
    match d.2.1 with
    | some label =>
        if label.length > 2 && !(label.all isDigitByte) then
          (normalize_volume_label label, .High)
        else (pf.title, .Low)
    | none => (pf.title, .Low)
  { format := .Iso
    filesystem := d.1
    volume_label := d.2.1
    parsed_filename := pf
    title := tc.1
    confidence := tc.2
    pvd := pvd
    toc := none
    hfs_mdb := d.2.2.2.1
    hfsplus_header := d.2.2.2.2 }

/-- Model of `DiscReader::read_iso`: detect the structure, parse according
to the detected kind (a PVD parse failure in the Iso9660 branch is a hard
`ParseError`), then derive title and confidence. -/
def read_iso (lookup : HfsPlusNameLookup) (c : FileContent)
    (pf : ParsedFilename) : Except DiscError DiscInfo :=
  match detect_disc_structure c with
  | .Iso9660 =>
      match PrimaryVolumeDescriptor.read_from c with
      | .error e => .error (.ParseError e)
      | .ok pvd =>
          let label :=
            if pvd.volume_id.isEmpty then none else some pvd.volume_id
          .ok (isoInfoFrom pf (.Iso9660, label, some pvd, none, none)
            (some pvd))
  | .ApplePartitionMap =>
      let r :=
        match try_hfs_detection lookup c with
        | .ok r => r
        | .error _ => (.Unknown, none, none, none, none)
      .ok (isoInfoFrom pf r r.2.2.1)
  | .HfsDirectly =>
      match HfsPlusVolumeHeader.parse lookup c with
      | .ok (header, volume_name) =>
          if header.is_valid then
            .ok (isoInfoFrom pf
              (.HfsPlus, some volume_name, none, none, some header) none)
          else .ok (isoInfoFrom pf (.Unknown, none, none, none, none) none)
      | .error _ =>
          match MasterDirectoryBlock.parse c with
          | .ok mdb =>
              if mdb.is_valid then
                .ok (isoInfoFrom pf
                  (.Hfs, some mdb.volume_name, none, some mdb, none) none)
              else
                .ok (isoInfoFrom pf (.Unknown, none, none, none, none) none)
          | .error _ =>
              .ok (isoInfoFrom pf (.Unknown, none, none, none, none) none)
  | .Unknown =>
      .ok (isoInfoFrom pf (.Unknown, none, none, none, none) none)

end DiscReader

/-- Result of reading a compressed-hunk image (chd.rs `ChdInfo`). -/
structure ChdInfo where
  volume_label : Option (List Nat)
  pvd : Option PrimaryVolumeDescriptor
  metadata : Option (List Nat)
  hunk_size : Nat
  logical_size : Nat
  toc : Option DiscTOC
  hfs_mdb : Option MasterDirectoryBlock
  hfsplus_header : Option HfsPlusVolumeHeader
  filesystem : FilesystemType
deriving DecidableEq, Repr

/-- Result of reading a track-sheet image (bincue.rs `BinCueInfo`, minus
the `bin_path` field). -/
structure BinCueInfo where
  volume_label : Option (List Nat)
  pvd : Option PrimaryVolumeDescriptor
  track_count : Nat
  toc : Option DiscTOC
  hfs_mdb : Option MasterDirectoryBlock
  hfsplus_header : Option HfsPlusVolumeHeader
  filesystem : FilesystemType
deriving DecidableEq, Repr

namespace DiscReader

/-- The filename-parsing fallback record shared by `read_chd`,
`read_bin_cue` and `read_mds_mdf`: unknown filesystem, no label, Low
confidence, title from the parsed filename. -/
def fallbackInfo (format : DiscFormat) (pf : ParsedFilename) : DiscInfo :=
  { format := format
    filesystem := .Unknown
    volume_label := none
    parsed_filename := pf
    title := pf.title
    confidence := .Low
    pvd := none
    toc := none
    hfs_mdb := none
    hfsplus_header := none }

/-- Model of `DiscReader::read_chd`, taking the result of `chd::read_chd`
as an argument: on success derive title and confidence (High from a usable
label, Medium from container metadata with no label, else Low); on failure
fall back to the filename with Low confidence. -/
def read_chd (chdResult : Except String ChdInfo) (pf : ParsedFilename) :
    Except DiscError DiscInfo :=
  match chdResult with
  | .ok ci =>
      let tc : List Nat × ConfidenceLevel :=
        match ci.volume_label with
        | some label =>
            if label.length > 2 && !(label.all isDigitByte) then
              (normalize_volume_label label, .High)
            else (pf.title, .Low)
        | none =>
            match ci.metadata with
            | some meta => (meta, .Medium)
            | none => (pf.title, .Low)
      .ok { format := .Chd
            filesystem := ci.filesystem
            volume_label := ci.volume_label
            parsed_filename := pf
            title := tc.1
            confidence := tc.2
            pvd := ci.pvd
            toc := ci.toc
            hfs_mdb := ci.hfs_mdb
            hfsplus_header := ci.hfsplus_header }
  | .error _ => .ok (fallbackInfo .Chd pf)

/-- Model of `DiscReader::read_bin_cue`, taking the CUE lookup and parse
result as an argument: `none` models "no CUE file found for this BIN";
otherwise the result of `bincue::read_bincue`.  Both the missing-CUE case
and a parse failure fall back to the filename with Low confidence. -/
def read_bin_cue (bincueResult : Option (Except String BinCueInfo))
    (pf : ParsedFilename) : Except DiscError DiscInfo :=
  match bincueResult with
  | none => .ok (fallbackInfo .BinCue pf)
  | some (.error _) => .ok (fallbackInfo .BinCue pf)
  | some (.ok bi) =>
      let tc : List Nat × ConfidenceLevel :=
        match bi.volume_label with
        | some label =>
            if label.length > 2 && !(label.all isDigitByte) then
              (normalize_volume_label label, .High)
            else (pf.title, .Low)
        | none => (pf.title, .Low)
      .ok { format := .BinCue
            filesystem := bi.filesystem
            volume_label := bi.volume_label
            parsed_filename := pf
            title := tc.1
            confidence := tc.2
            pvd := bi.pvd
            toc := bi.toc
            hfs_mdb := bi.hfs_mdb
            hfsplus_header := bi.hfsplus_header }

/-- Model of `DiscReader::read_mds_mdf`: unimplemented format, always the
filename fallback. -/
def read_mds_mdf (pf : ParsedFilename) : Except DiscError DiscInfo :=
  .ok (fallbackInfo .MdsMdf pf)

/-- Model of `DiscReader::read`: check existence, dispatch on the file
extension, and run the per-format reader.  `fileExists` models
`path.exists()`; `chdResult` and `bincueResult` carry the outcomes of the
respective sub-readers for the dispatched path. -/
def read (lookup : HfsPlusNameLookup) (chdResult : Except String ChdInfo)
    (bincueResult : Option (Except String BinCueInfo)) (fileExists : Bool)
    (ext : Option String) (c : FileContent) (pf : ParsedFilename) :
    Except DiscError DiscInfo :=
  if !fileExists then .error .FileNotFound
  else
    match DiscFormat.from_path ext with
    | none => .error (.UnsupportedFormat ((ext.getD "unknown")))
    | some .Iso => read_iso lookup c pf
    | some .Chd => read_chd chdResult pf
    | some .BinCue => read_bin_cue bincueResult pf
    | some .MdsMdf => read_mds_mdf pf

end DiscReader

/-- Claim C4: structure detection over the 64KB prefix tests, in priority
order, the partition-map signature (0x45,0x52) at byte 0, the classic
filesystem signature (0x42,0x44) at byte 1024, the extended filesystem
signature (0x48,0x2B or 0x48,0x58) at byte 1024, then the ISO-family
signature (0x01 then "CD001") at byte 32768, returning the first match;
with no match, or fewer than 2048 readable bytes, it returns Unknown. -/
theorem claim_C4_detect_structure (c : FileContent) :
    DiscReader.detect_disc_structure c =
      if min c.size 65536 < 2048 then .Unknown
      else if c.byte 0 = 0x45 ∧ c.byte 1 = 0x52 then .ApplePartitionMap
      else if c.byte 1024 = 0x42 ∧ c.byte 1025 = 0x44 then .HfsDirectly
      else if c.byte 1024 = 0x48 ∧ (c.byte 1025 = 0x2B ∨ c.byte 1025 = 0x58)
        then .HfsDirectly
      else if 32774 ≤ min c.size 65536 ∧ c.byte 32768 = 0x01 ∧
          c.byte 32769 = 67 ∧ c.byte 32770 = 68 ∧ c.byte 32771 = 48 ∧
          c.byte 32772 = 48 ∧ c.byte 32773 = 49 then .Iso9660
      else .Unknown := by
  simp only [DiscReader.detect_disc_structure]
  by_cases hsmall : min c.size 65536 < 2048
  · simp [hsmall]
  · have e : ∀ i, i < min c.size 65536 →
        (if i < min c.size 65536 then c.byte i else 0) = c.byte i :=
      fun i hi => if_pos hi
    by_cases hiso : 32774 ≤ min c.size 65536
    · simp only [hsmall, if_false, e 0 (by omega), e 1 (by omega),
        e 1024 (by omega), e 1025 (by omega), e 32768 (by omega),
        e 32769 (by omega), e 32770 (by omega), e 32771 (by omega),
        e 32772 (by omega), e 32773 (by omega)]
      simp only [show (512 ≤ min c.size 65536) = True by simp; omega,
        show (1026 ≤ min c.size 65536) = True by simp; omega,
        true_and]
      simp [and_or_left]
    · simp only [hsmall, if_false, e 0 (by omega), e 1 (by omega),
        e 1024 (by omega), e 1025 (by omega)]
      simp only [show (512 ≤ min c.size 65536) = True by simp; omega,
        show (1026 ≤ min c.size 65536) = True by simp; omega,
        show (32774 ≤ min c.size 65536) = False by simp; omega,
        true_and, false_and, if_false]
      simp [and_or_left]

/-- A trivial catalog-name lookup environment (always fails, so the HFS+
parse degrades to the placeholder name). -/
def nullNameLookup : HfsPlusNameLookup := fun _ _ => .error "no catalog"

/-- A parsed filename with empty fields. -/
def blankParsedFilename : ParsedFilename :=
  { title := [], original := [], region := none, disc_number := none,
    serial := none, version := none }

/-- An empty disc-image file. -/
def emptyContent : FileContent := ⟨0, fun _ => 0⟩

/-- A 34816-byte single-file image whose bytes 32768..32774 carry the
ISO-family signature (type 1, "CD001") but whose version byte (offset
32774) is 0 rather than 1. -/
def pvdVersionZeroContent : FileContent :=
  { size := 34816
    byte := fun i =>
      if i = 32768 then 1
      else if i = 32769 then 67
      else if i = 32770 then 68
      else if i = 32771 then 48
      else if i = 32772 then 48
      else if i = 32773 then 49
      else 0 }

theorem getD_map_range (f : Nat → Nat) {n i : Nat} (h : i < n) :
    ((List.range n).map f).getD i 0 = f i := by
  rw [List.getD_eq_getElem?_getD, List.getElem?_map, List.getElem?_range h]
  rfl

theorem take_drop_map_range (f : Nat → Nat) (n k m : Nat) (h : k + m ≤ n) :
    (((List.range n).map f).drop k).take m =
      (List.range m).map fun i => f (k + i) := by
  apply List.ext_getElem?
  intro i
  simp only [List.getElem?_take, List.getElem?_drop, List.getElem?_map,
    List.getElem?_range]
  by_cases him : i < m
  · simp [him, show k + i < n by omega, Nat.add_comm]
  · rw [List.getElem?_eq_none (l := List.range m) (by simpa using him)]
    simp [him]

theorem read_dispatch_iso (lookup : HfsPlusNameLookup)
    (chdResult : Except String ChdInfo)
    (bincueResult : Option (Except String BinCueInfo)) (ext : Option String)
    (c : FileContent) (pf : ParsedFilename)
    (hfmt : DiscFormat.from_path ext = some .Iso) :
    DiscReader.read lookup chdResult bincueResult true ext c pf =
      DiscReader.read_iso lookup c pf := by
  unfold DiscReader.read
  rw [hfmt]
  rfl

theorem read_dispatch_chd (lookup : HfsPlusNameLookup)
    (chdResult : Except String ChdInfo)
    (bincueResult : Option (Except String BinCueInfo)) (ext : Option String)
    (c : FileContent) (pf : ParsedFilename)
    (hfmt : DiscFormat.from_path ext = some .Chd) :
    DiscReader.read lookup chdResult bincueResult true ext c pf =
      DiscReader.read_chd chdResult pf := by
  unfold DiscReader.read
  rw [hfmt]
  rfl

theorem read_dispatch_bin_cue (lookup : HfsPlusNameLookup)
    (chdResult : Except String ChdInfo)
    (bincueResult : Option (Except String BinCueInfo)) (ext : Option String)
    (c : FileContent) (pf : ParsedFilename)
    (hfmt : DiscFormat.from_path ext = some .BinCue) :
    DiscReader.read lookup chdResult bincueResult true ext c pf =
      DiscReader.read_bin_cue bincueResult pf := by
  unfold DiscReader.read
  rw [hfmt]
  rfl

theorem read_dispatch_mds_mdf (lookup : HfsPlusNameLookup)
    (chdResult : Except String ChdInfo)
    (bincueResult : Option (Except String BinCueInfo)) (ext : Option String)
    (c : FileContent) (pf : ParsedFilename)
    (hfmt : DiscFormat.from_path ext = some .MdsMdf) :
    DiscReader.read lookup chdResult bincueResult true ext c pf =
      DiscReader.read_mds_mdf pf := by
  unfold DiscReader.read
  rw [hfmt]
  rfl

theorem pvd_parse_versionZero :
    PrimaryVolumeDescriptor.parse ((List.range 2048).map fun i =>
      pvdVersionZeroContent.byte (32768 + i)) =
      .error "Unsupported PVD version" := by
  unfold PrimaryVolumeDescriptor.parse
  rw [if_neg (by simp [SECTOR_SIZE]),
    if_neg (by rw [getD_map_range _ (by norm_num)]; decide),
    if_neg (by rw [take_drop_map_range _ _ _ _ (by norm_num)]; decide),
    if_pos (by rw [getD_map_range _ (by norm_num)]; decide)]

theorem pvd_read_from_versionZero :
    PrimaryVolumeDescriptor.read_from pvdVersionZeroContent =
      .error "Unsupported PVD version" := by
  unfold PrimaryVolumeDescriptor.read_from
  rw [show readExact pvdVersionZeroContent PVD_OFFSET SECTOR_SIZE =
      .ok ((List.range 2048).map fun i =>
        pvdVersionZeroContent.byte (32768 + i)) from by
    unfold readExact
    rw [if_pos (by norm_num [PVD_OFFSET, SECTOR_SIZE, pvdVersionZeroContent])]
    rfl]
  exact pvd_parse_versionZero

theorem read_chd_isOk (r : Except String ChdInfo) (pf : ParsedFilename) :
    ∃ info, DiscReader.read_chd r pf = .ok info := by
  unfold DiscReader.read_chd
  cases r with
  | ok ci => exact ⟨_, rfl⟩
  | error e => exact ⟨_, rfl⟩

theorem read_bin_cue_isOk (r : Option (Except String BinCueInfo))
    (pf : ParsedFilename) : ∃ info, DiscReader.read_bin_cue r pf = .ok info := by
  unfold DiscReader.read_bin_cue
  match r with
  | none => exact ⟨_, rfl⟩
  | some (.error e) => exact ⟨_, rfl⟩
  | some (.ok bi) => exact ⟨_, rfl⟩

theorem read_iso_isOk_of_not_iso9660 (lookup : HfsPlusNameLookup)
    (c : FileContent) (pf : ParsedFilename)
    (h : DiscReader.detect_disc_structure c ≠ .Iso9660) :
    ∃ info, DiscReader.read_iso lookup c pf = .ok info := by
  unfold DiscReader.read_iso
  match hdet : DiscReader.detect_disc_structure c with
  | .Iso9660 => exact absurd hdet h
  | .ApplePartitionMap => exact ⟨_, rfl⟩
  | .HfsDirectly =>
      match HfsPlusVolumeHeader.parse lookup c with
      | .ok (header, volume_name) =>
          by_cases hv : header.is_valid <;> simp [hv]
      | .error _ =>
          match MasterDirectoryBlock.parse c with
          | .ok mdb => by_cases hv : mdb.is_valid <;> simp [hv]
          | .error _ => exact ⟨_, rfl⟩
  | .Unknown => exact ⟨_, rfl⟩

theorem read_iso_of_pvd (lookup : HfsPlusNameLookup) (c : FileContent)
    (pf : ParsedFilename)
    (hdet : DiscReader.detect_disc_structure c = .Iso9660) :
    DiscReader.read_iso lookup c pf =
      match PrimaryVolumeDescriptor.read_from c with
      | .error e => .error (.ParseError e)
      | .ok pvd =>
          .ok (DiscReader.isoInfoFrom pf
            (.Iso9660,
              (if pvd.volume_id.isEmpty then none else some pvd.volume_id),
              some pvd, none, none) (some pvd)) := by
  unfold DiscReader.read_iso
  rw [hdet]

/-- Counterexample to claim C1: a recognized `.iso` file on which
`DiscReader::read` returns a hard `ParseError` instead of a disc-info
record.  Structure detection reports Iso9660 (it checks only bytes
32768..32774), but the descriptor parse then rejects the version byte, and
`read_iso` surfaces that failure through `?` as `DiscError::ParseError`. -/
theorem claim_C1_counterexample :
    DiscReader.read nullNameLookup (.error "") none true (some "iso")
      pvdVersionZeroContent blankParsedFilename =
      .error (.ParseError "Unsupported PVD version") := by
  rw [read_dispatch_iso nullNameLookup (.error "") none (some "iso")
      pvdVersionZeroContent blankParsedFilename (by decide),
    read_iso_of_pvd nullNameLookup pvdVersionZeroContent blankParsedFilename
      (by decide), pvd_read_from_versionZero]

/-- Claim C1 (corrected): with a recognized extension, `DiscReader::read`
yields a disc-info record, and sub-reader failures degrade to the
Low-confidence filename-derived record — except on the single-file path
when structure detection reports Iso9660 but the descriptor sector then
fails to read or parse (e.g. a bad version byte), in which case the
failure is surfaced as a hard `ParseError`. -/
theorem claim_C1_read_total (lookup : HfsPlusNameLookup)
    (chdResult : Except String ChdInfo)
    (bincueResult : Option (Except String BinCueInfo))
    (ext : Option String) (fmt : DiscFormat) (c : FileContent)
    (pf : ParsedFilename) (hfmt : DiscFormat.from_path ext = some fmt) :
    (fmt ≠ .Iso →
      ∃ info, DiscReader.read lookup chdResult bincueResult true ext c pf =
        .ok info) ∧
    (fmt = .Chd → ∀ e, chdResult = .error e →
      DiscReader.read lookup chdResult bincueResult true ext c pf =
        .ok (DiscReader.fallbackInfo .Chd pf)) ∧
    (fmt = .BinCue →
      (bincueResult = none ∨ ∃ e, bincueResult = some (.error e)) →
      DiscReader.read lookup chdResult bincueResult true ext c pf =
        .ok (DiscReader.fallbackInfo .BinCue pf)) ∧
    (fmt = .MdsMdf →
      DiscReader.read lookup chdResult bincueResult true ext c pf =
        .ok (DiscReader.fallbackInfo .MdsMdf pf)) ∧
    (fmt = .Iso → DiscReader.detect_disc_structure c ≠ .Iso9660 →
      ∃ info, DiscReader.read lookup chdResult bincueResult true ext c pf =
        .ok info) ∧
    (fmt = .Iso → ∀ pvd, PrimaryVolumeDescriptor.read_from c = .ok pvd →
      ∃ info, DiscReader.read lookup chdResult bincueResult true ext c pf =
        .ok info) ∧
    (fmt = .Iso → DiscReader.detect_disc_structure c = .Iso9660 →
      ∀ e, PrimaryVolumeDescriptor.read_from c = .error e →
        DiscReader.read lookup chdResult bincueResult true ext c pf =
          .error (.ParseError e)) ∧
    ((DiscReader.fallbackInfo fmt pf).confidence = .Low ∧
      (DiscReader.fallbackInfo fmt pf).title = pf.title) := by
  refine ⟨?_, ?_, ?_, ?_, ?_, ?_, ?_, rfl, rfl⟩
  · intro hne
    cases fmt with
    | Iso => exact absurd rfl hne
    | Chd =>
        rw [read_dispatch_chd lookup chdResult bincueResult ext c pf hfmt]
        exact read_chd_isOk chdResult pf
    | BinCue =>
        rw [read_dispatch_bin_cue lookup chdResult bincueResult ext c pf hfmt]
        exact read_bin_cue_isOk bincueResult pf
    | MdsMdf =>
        rw [read_dispatch_mds_mdf lookup chdResult bincueResult ext c pf hfmt]
        exact ⟨_, rfl⟩
  · rintro rfl e rfl
    rw [read_dispatch_chd lookup _ bincueResult ext c pf hfmt]
    rfl
  · rintro rfl hbc
    rw [read_dispatch_bin_cue lookup chdResult bincueResult ext c pf hfmt]
    rcases hbc with rfl | ⟨e, rfl⟩ <;> rfl
  · rintro rfl
    rw [read_dispatch_mds_mdf lookup chdResult bincueResult ext c pf hfmt]
    rfl
  · rintro rfl hdet
    rw [read_dispatch_iso lookup chdResult bincueResult ext c pf hfmt]
    exact read_iso_isOk_of_not_iso9660 lookup c pf hdet
  · rintro rfl pvd hpvd
    rw [read_dispatch_iso lookup chdResult bincueResult ext c pf hfmt]
    by_cases hdet : DiscReader.detect_disc_structure c = .Iso9660
    · rw [read_iso_of_pvd lookup c pf hdet, hpvd]
      exact ⟨_, rfl⟩
    · exact read_iso_isOk_of_not_iso9660 lookup c pf hdet
  · rintro rfl hdet e he
    rw [read_dispatch_iso lookup chdResult bincueResult ext c pf hfmt,
      read_iso_of_pvd lookup c pf hdet, he]

/-- Witness for the corrected claim C1: a CHD whose container read fails
degrades to the Low-confidence filename record. -/
theorem claim_C1_read_total_witness :
    DiscReader.read nullNameLookup (.error "corrupt") none true
      (some "chd") emptyContent blankParsedFilename =
      .ok (DiscReader.fallbackInfo .Chd blankParsedFilename) :=
  (claim_C1_read_total nullNameLookup (.error "corrupt") none (some "chd")
    .Chd emptyContent blankParsedFilename (by rfl)).2.1 rfl "corrupt" rfl

/-- Usable-label conditions behind a High confidence: some label that is
non-empty, longer than 2 bytes, and not all ASCII digits. -/
def HighLabelOk (info : DiscInfo) : Prop :=
  ∃ l, info.volume_label = some l ∧ l ≠ [] ∧ 2 < l.length ∧
    l.all isDigitByte = false

theorem isoInfoFrom_conf (pf : ParsedFilename) (d : DiscReader.HfsDetection)
    (pvd : Option PrimaryVolumeDescriptor) :
    ((DiscReader.isoInfoFrom pf d pvd).confidence = .High →
      HighLabelOk (DiscReader.isoInfoFrom pf d pvd)) ∧
    (DiscReader.isoInfoFrom pf d pvd).confidence ≠ .Medium := by
  obtain ⟨fs, lbl, p1, p2, p3⟩ := d
  cases lbl with
  | none => simp [DiscReader.isoInfoFrom]
  | some label =>
      by_cases hc :
          (decide (label.length > 2) && !label.all isDigitByte) = true
      · simp only [DiscReader.isoInfoFrom, hc, if_true, HighLabelOk]
        simp only [Bool.and_eq_true, decide_eq_true_eq,
          Bool.not_eq_true'] at hc
        refine ⟨fun _ => ⟨label, rfl, ?_, hc.1, hc.2⟩, by simp⟩
        intro hnil
        rw [hnil] at hc
        simp at hc
      · simp [DiscReader.isoInfoFrom, hc]

theorem read_iso_conf (lookup : HfsPlusNameLookup) (c : FileContent)
    (pf : ParsedFilename) (info : DiscInfo)
    (h : DiscReader.read_iso lookup c pf = .ok info) :
    (info.confidence = .High → HighLabelOk info) ∧
    info.confidence ≠ .Medium := by
  unfold DiscReader.read_iso at h
  split at h
  · split at h
    · cases h
    · injection h with h
      subst h
      exact isoInfoFrom_conf ..
  · injection h with h
    subst h
    exact isoInfoFrom_conf ..
  · split at h
    · split at h <;>
        (injection h with h; subst h; exact isoInfoFrom_conf ..)
    · split at h
      · split at h <;>
          (injection h with h; subst h; exact isoInfoFrom_conf ..)
      · injection h with h
        subst h
        exact isoInfoFrom_conf ..
  · injection h with h
    subst h
    exact isoInfoFrom_conf ..

theorem fallbackInfo_conf (format : DiscFormat) (pf : ParsedFilename) :
    (DiscReader.fallbackInfo format pf).confidence = .Low := rfl

theorem read_chd_conf (r : Except String ChdInfo) (pf : ParsedFilename)
    (info : DiscInfo) (h : DiscReader.read_chd r pf = .ok info) :
    (info.confidence = .High → HighLabelOk info) ∧
    (info.confidence = .Medium →
      info.volume_label = none ∧
      ∃ ci, r = .ok ci ∧ ci.volume_label = none ∧
        ∃ m, ci.metadata = some m) := by
  unfold DiscReader.read_chd at h
  match r, h with
  | .error e, h =>
      injection h with h
      subst h
      simp [DiscReader.fallbackInfo, HighLabelOk]
  | .ok ci, h =>
      injection h with h
      subst h
      match hl : ci.volume_label with
      | some label =>
          by_cases hc :
              (decide (label.length > 2) && !label.all isDigitByte) = true
          · simp only [hl, hc, if_true, HighLabelOk]
            simp only [Bool.and_eq_true, decide_eq_true_eq,
              Bool.not_eq_true'] at hc
            refine ⟨fun _ => ⟨label, rfl, ?_, hc.1, hc.2⟩, by simp⟩
            intro hnil
            rw [hnil] at hc
            simp at hc
          · simp [hl, hc]
      | none =>
          match hm : ci.metadata with
          | some meta => simp [hl, hm, hl]
          | none => simp [hl, hm]

theorem read_bin_cue_conf (r : Option (Except String BinCueInfo))
    (pf : ParsedFilename) (info : DiscInfo)
    (h : DiscReader.read_bin_cue r pf = .ok info) :
    (info.confidence = .High → HighLabelOk info) ∧
    info.confidence ≠ .Medium := by
  unfold DiscReader.read_bin_cue at h
  match r, h with
  | none, h =>
      injection h with h
      subst h
      simp [DiscReader.fallbackInfo, HighLabelOk]
  | some (.error e), h =>
      injection h with h
      subst h
      simp [DiscReader.fallbackInfo, HighLabelOk]
  | some (.ok bi), h =>
      injection h with h
      subst h
      match hl : bi.volume_label with
      | some label =>
          by_cases hc :
              (decide (label.length > 2) && !label.all isDigitByte) = true
          · simp only [hl, hc, if_true, HighLabelOk]
            simp only [Bool.and_eq_true, decide_eq_true_eq,
              Bool.not_eq_true'] at hc
            refine ⟨fun _ => ⟨label, rfl, ?_, hc.1, hc.2⟩, by simp⟩
            intro hnil
            rw [hnil] at hc
            simp at hc
          · simp [hl, hc]
      | none => simp [hl]

/-- Claim C3: every record produced by `DiscReader::read` has confidence
High only when a non-empty, longer-than-2, not-all-digits volume label was
found; Medium only when container-level metadata (and no label at all) was
found on the compressed-hunk path; in every other case Low. -/
theorem claim_C3_confidence_invariant (lookup : HfsPlusNameLookup)
    (chdResult : Except String ChdInfo)
    (bincueResult : Option (Except String BinCueInfo)) (fileExists : Bool)
    (ext : Option String) (c : FileContent) (pf : ParsedFilename)
    (info : DiscInfo)
    (h : DiscReader.read lookup chdResult bincueResult fileExists ext c pf =
      .ok info) :
    (info.confidence = .High → HighLabelOk info) ∧
    (info.confidence = .Medium →
      info.volume_label = none ∧
      ∃ ci, chdResult = .ok ci ∧ ci.volume_label = none ∧
        ∃ m, ci.metadata = some m) ∧
    (info.confidence ≠ .High → info.confidence ≠ .Medium →
      info.confidence = .Low) := by
  have hlow : info.confidence ≠ .High → info.confidence ≠ .Medium →
      info.confidence = .Low := by
    cases info.confidence <;> simp
  unfold DiscReader.read at h
  split at h
  · cases h
  · split at h
    · cases h
    · have := read_iso_conf lookup c pf info h
      exact ⟨this.1, fun hm => absurd hm this.2, hlow⟩
    · have := read_chd_conf chdResult pf info h
      exact ⟨this.1, this.2, hlow⟩
    · have := read_bin_cue_conf bincueResult pf info h
      exact ⟨this.1, fun hm => absurd hm this.2, hlow⟩
    · unfold DiscReader.read_mds_mdf at h
      injection h with h
      subst h
      exact ⟨by simp [DiscReader.fallbackInfo, HighLabelOk],
        by simp [DiscReader.fallbackInfo], hlow⟩

/-- Witness for claim C3 at a concrete MDS/MDF read, whose record has Low
confidence. -/
theorem claim_C3_confidence_invariant_witness :
    ((DiscReader.fallbackInfo .MdsMdf blankParsedFilename).confidence =
        .High →
      HighLabelOk (DiscReader.fallbackInfo .MdsMdf blankParsedFilename)) ∧
    ((DiscReader.fallbackInfo .MdsMdf blankParsedFilename).confidence =
        .Medium →
      (DiscReader.fallbackInfo .MdsMdf blankParsedFilename).volume_label =
          none ∧
      ∃ ci, (.error "x" : Except String ChdInfo) = .ok ci ∧
        ci.volume_label = none ∧ ∃ m, ci.metadata = some m) ∧
    ((DiscReader.fallbackInfo .MdsMdf blankParsedFilename).confidence ≠
        .High →
      (DiscReader.fallbackInfo .MdsMdf blankParsedFilename).confidence ≠
        .Medium →
      (DiscReader.fallbackInfo .MdsMdf blankParsedFilename).confidence =
        .Low) :=
  claim_C3_confidence_invariant nullNameLookup (.error "x") none true
    (some "mds") emptyContent blankParsedFilename
    (DiscReader.fallbackInfo .MdsMdf blankParsedFilename) (by rfl)

/-! ## bincue.rs and chd.rs — TOC extraction -/

/-- Track type from the CUE parser (the `cue_sheet` crate's `TrackType`):
audio, a numbered data mode, or anything else. -/
inductive TrackType
  | Audio
  | Mode (mode : Nat) (size : Nat)
  | OtherType
deriving DecidableEq, Repr

/-- Track parsed from a CUE sheet (bincue.rs `ParsedTrack`). -/
structure ParsedTrack where
  track_no : Nat
  track_type : TrackType
  sector_size : Nat
  data_offset : Nat
  is_data : Bool
  bin_filename : List Nat
  index_01 : Option String
deriving DecidableEq, Repr

/-- Model of `str::split(':')` on the character list. -/
def splitColon : List Char → List (List Char)
  | [] => [[]]
  | ch :: rest =>
      if ch = ':' then [] :: splitColon rest
      else
        match splitColon rest with
        | h :: t => (ch :: h) :: t
        | [] => [[ch]]

/-- Model of Rust `str::parse::<u32>`: an optional leading `+`, then one or
more ASCII digits, failing on overflow past `u32::MAX`. -/
def rustParseU32 (l : List Char) : Option Nat :=
  let l2 := match l with
    | '+' :: rest => rest
    | _ => l
  if l2.isEmpty then none
  else if l2.all fun ch => ch.isDigit then
    let v := l2.foldl (fun a ch => a * 10 + (ch.toNat - 48)) 0
    if v < U32SIZE then some v else none
  else none

/-- Model of `parse_msf` (toc.rs): parse "MM:SS:FF" and convert to frames
with u32 arithmetic. -/
def parse_msf (msf : String) : Option Nat :=
  let parts := splitColon msf.data
  if parts.length ≠ 3 then none
  else
    match rustParseU32 (parts.getD 0 []), rustParseU32 (parts.getD 1 []),
        rustParseU32 (parts.getD 2 []) with
    | some minutes, some seconds, some frames =>
        some (((minutes * 60 % U32SIZE + seconds) % U32SIZE *
          Toc.FRAMES_PER_SECOND % U32SIZE + frames) % U32SIZE)
    | _, _, _ => none

/-- Track-type display tags used when converting to TOC track info
(bincue.rs `extract_toc`). -/
def trackTypeName (tt : TrackType) : String :=
  match tt with
  | .Audio => "AUDIO"
  | .Mode 1 _ => "MODE1"
  | .Mode 2 _ => "MODE2"
  | _ => "OTHER"

namespace Bincue

/-- The tracks of the CUE sheet that carry an INDEX 01 position. -/
def tracksWithIndex (tracks : List ParsedTrack) : List ParsedTrack :=
  tracks.filter fun t => t.index_01.isSome

/-- The TOC track list built by `extract_toc`: INDEX-01 tracks whose MSF
stamp parses, with u8-truncated track numbers. -/
def trackInfos (tracks : List ParsedTrack) : List Toc.TrackInfo :=
  (tracksWithIndex tracks).filterMap fun t =>
    match t.index_01 with
    | some msf =>
        match parse_msf msf with
        | some offset =>
            some { number := t.track_no % U8SIZE, offset := offset,
                   track_type := trackTypeName t.track_type }
        | none => none
    | none => none

/-- The total length in frames used by `extract_toc`: the BIN file size in
sectors when the file metadata is available (`binSize`), otherwise the last
track offset plus 5000.  A zero sector size, a division-by-zero panic in
Rust, is modelled as Nat division (0). -/
def totalLengthFrames (tracks : List ParsedTrack) (binSize : Option Nat) :
    Nat :=
  match binSize with
  | some file_size =>
      let sector_size := (tracks.head?.map fun t => t.sector_size).getD 2352
      file_size / sector_size % U32SIZE
  | none =>
      ((trackInfos tracks).getLast?.map fun t =>
        (t.offset + 5000) % U32SIZE).getD 0

/-- Model of `extract_toc` (bincue.rs): require some INDEX-01 track, at
least one audio track, and a non-empty converted list, then build the TOC.
The file-size lookup `fs::metadata(bin_path)` is the `binSize` argument. -/
def extract_toc (tracks : List ParsedTrack) (binSize : Option Nat) :
    Option DiscTOC :=
  if (tracksWithIndex tracks).isEmpty then none
  else if !(tracks.any fun t =>
      match t.track_type with
      | .Audio => true
      | _ => false) then none
  else if (trackInfos tracks).isEmpty then none
  else
    DiscTOC.from_tracks (trackInfos tracks) (totalLengthFrames tracks binSize)

end Bincue

namespace Chd

/-- Track information from CHD CHT2 metadata (chd.rs `TrackInfo`). -/
structure TrackInfo where
  track_num : Nat
  track_type : String
  frames : Nat
  frame_offset : Nat
deriving DecidableEq, Repr

end Chd

/-- Model of `is_audio_track` (chd.rs). -/
def is_audio_track (track_type : String) : Bool := track_type = "AUDIO"

namespace Chd

/-- The audio tracks converted to TOC track info
(`extract_toc_from_tracks`). -/
def tocTracks (tracks : List TrackInfo) : List Toc.TrackInfo :=
  (tracks.filter fun t => is_audio_track t.track_type).map fun t =>
    { number := t.track_num % U8SIZE, offset := t.frame_offset,
      track_type := t.track_type }

/-- The total length in frames used by `extract_toc_from_tracks`: the
largest `frame_offset + frames` over all tracks (u32 addition), 0 for an
empty list. -/
def totalLengthFrames (tracks : List TrackInfo) : Nat :=
  ((tracks.map fun t => (t.frame_offset + t.frames) % U32SIZE).max?).getD 0

/-- Model of `extract_toc_from_tracks` (chd.rs): require at least one
audio track, then build the TOC from the audio tracks only. -/
def extract_toc_from_tracks (tracks : List TrackInfo) : Option DiscTOC :=
  if (tracks.filter fun t => is_audio_track t.track_type).isEmpty then none
  else DiscTOC.from_tracks (tocTracks tracks) (totalLengthFrames tracks)

end Chd

theorem from_tracks_spec (tracks : List Toc.TrackInfo) (total : Nat)
    (toc : DiscTOC) (h : DiscTOC.from_tracks tracks total = some toc) :
    toc.track_offsets = tracks.map (fun t => (t.offset + 150) % U32SIZE) ∧
    toc.lead_out = (total + 150) % U32SIZE := by
  unfold DiscTOC.from_tracks at h
  split at h
  · cases h
  · split at h
    · injection h with h
      subst h
      exact ⟨rfl, rfl⟩
    · cases h

/-- Claim C7: the TOC-building operations return no TOC without at least
one audio track; when a TOC is built, every per-track start offset is that
track's frame offset plus 150 and the lead-out is the total length plus
150 (shown first with the u32 wrap the code performs, then exactly as
stated under in-range bounds). -/
theorem claim_C7_toc_building :
    (∀ tracks binSize, (∀ t ∈ tracks, t.track_type ≠ TrackType.Audio) →
      Bincue.extract_toc tracks binSize = none) ∧
    (∀ tracks, (∀ t ∈ tracks, is_audio_track t.track_type = false) →
      Chd.extract_toc_from_tracks tracks = none) ∧
    (∀ tracks binSize toc, Bincue.extract_toc tracks binSize = some toc →
      (∃ t ∈ tracks, t.track_type = TrackType.Audio) ∧
      toc.track_offsets =
        (Bincue.trackInfos tracks).map (fun t => (t.offset + 150) % U32SIZE) ∧
      toc.lead_out =
        (Bincue.totalLengthFrames tracks binSize + 150) % U32SIZE) ∧
    (∀ tracks toc, Chd.extract_toc_from_tracks tracks = some toc →
      (∃ t ∈ tracks, is_audio_track t.track_type = true) ∧
      toc.track_offsets =
        (Chd.tocTracks tracks).map (fun t => (t.offset + 150) % U32SIZE) ∧
      toc.lead_out = (Chd.totalLengthFrames tracks + 150) % U32SIZE) ∧
    (∀ tracks binSize toc, Bincue.extract_toc tracks binSize = some toc →
      (∀ t ∈ Bincue.trackInfos tracks, t.offset + 150 < U32SIZE) →
      Bincue.totalLengthFrames tracks binSize + 150 < U32SIZE →
      toc.track_offsets =
        (Bincue.trackInfos tracks).map (fun t => t.offset + 150) ∧
      toc.lead_out = Bincue.totalLengthFrames tracks binSize + 150) ∧
    (∀ tracks toc, Chd.extract_toc_from_tracks tracks = some toc →
      (∀ t ∈ Chd.tocTracks tracks, t.offset + 150 < U32SIZE) →
      Chd.totalLengthFrames tracks + 150 < U32SIZE →
      toc.track_offsets = (Chd.tocTracks tracks).map (fun t => t.offset + 150) ∧
      toc.lead_out = Chd.totalLengthFrames tracks + 150) := by
  have hb_some : ∀ tracks binSize toc,
      Bincue.extract_toc tracks binSize = some toc →
      (∃ t ∈ tracks, t.track_type = TrackType.Audio) ∧
      toc.track_offsets =
        (Bincue.trackInfos tracks).map (fun t => (t.offset + 150) % U32SIZE) ∧
      toc.lead_out =
        (Bincue.totalLengthFrames tracks binSize + 150) % U32SIZE := by
    intro tracks binSize toc h
    unfold Bincue.extract_toc at h
    split at h
    · cases h
    · split at h
      · cases h
      · split at h
        · cases h
        · rename_i hidx hany hinfos
          have hspec := from_tracks_spec _ _ _ h
          refine ⟨?_, hspec.1, hspec.2⟩
          have hany2 : (tracks.any fun t =>
              match t.track_type with
              | TrackType.Audio => true
              | _ => false) = true := by
            by_contra hcon
            exact hany (by simp [Bool.eq_false_iff.mpr hcon])
          obtain ⟨t, ht, hf⟩ := List.any_eq_true.mp hany2
          refine ⟨t, ht, ?_⟩
          cases htt : t.track_type with
          | Audio => rfl
          | Mode m s => rw [htt] at hf; cases hf
          | OtherType => rw [htt] at hf; cases hf
  have hc_some : ∀ tracks toc,
      Chd.extract_toc_from_tracks tracks = some toc →
      (∃ t ∈ tracks, is_audio_track t.track_type = true) ∧
      toc.track_offsets =
        (Chd.tocTracks tracks).map (fun t => (t.offset + 150) % U32SIZE) ∧
      toc.lead_out = (Chd.totalLengthFrames tracks + 150) % U32SIZE := by
    intro tracks toc h
    unfold Chd.extract_toc_from_tracks at h
    split at h
    · cases h
    · rename_i hflt
      have hspec := from_tracks_spec _ _ _ h
      refine ⟨?_, hspec.1, hspec.2⟩
      have : tracks.filter (fun t => is_audio_track t.track_type) ≠ [] := by
        intro hnil
        exact hflt (by simp [hnil])
      obtain ⟨t, ht⟩ := List.exists_mem_of_ne_nil _ this
      obtain ⟨hmem, hprop⟩ := List.mem_filter.mp ht
      exact ⟨t, hmem, hprop⟩
  refine ⟨?_, ?_, hb_some, hc_some, ?_, ?_⟩
  · intro tracks binSize hno
    unfold Bincue.extract_toc
    by_cases h1 : (Bincue.tracksWithIndex tracks).isEmpty
    · rw [if_pos h1]
    · rw [if_neg h1, if_pos]
      have : (tracks.any fun t =>
          match t.track_type with
          | TrackType.Audio => true
          | _ => false) = false := by
        rw [List.any_eq_false]
        intro t ht hf
        cases htt : t.track_type with
        | Audio => exact hno t ht htt
        | Mode m s => rw [htt] at hf; cases hf
        | OtherType => rw [htt] at hf; cases hf
      rw [this]
      rfl
  · intro tracks hno
    unfold Chd.extract_toc_from_tracks
    rw [if_pos]
    rw [List.filter_eq_nil_iff.mpr (by simpa using hno)]
    rfl
  · intro tracks binSize toc h hofs htot
    obtain ⟨_, hofs_eq, hlead⟩ := hb_some tracks binSize toc h
    refine ⟨?_, ?_⟩
    · rw [hofs_eq]
      exact List.map_congr_left fun t ht => Nat.mod_eq_of_lt (hofs t ht)
    · rw [hlead]
      exact Nat.mod_eq_of_lt htot
  · intro tracks toc h hofs htot
    obtain ⟨_, hofs_eq, hlead⟩ := hc_some tracks toc h
    refine ⟨?_, ?_⟩
    · rw [hofs_eq]
      exact List.map_congr_left fun t ht => Nat.mod_eq_of_lt (hofs t ht)
    · rw [hlead]
      exact Nat.mod_eq_of_lt htot

/-- A one-track CUE sheet: audio track 1 with INDEX 01 at 00:02:00. -/
def demoCueTracks : List ParsedTrack :=
  [{ track_no := 1, track_type := .Audio, sector_size := 2352,
     data_offset := 0, is_data := false, bin_filename := [],
     index_01 := some "00:02:00" }]

/-- Witness for claim C7: the one-audio-track CUE sheet with a
2,352,000-byte BIN yields a TOC, with the pregap-biased offsets; and an
all-data CHD track list yields none. -/
theorem claim_C7_toc_building_witness :
    ((∃ t ∈ demoCueTracks, t.track_type = TrackType.Audio) ∧
      ({ first_track := 1, last_track := 1, lead_out := 1150,
         track_offsets := [300] } : DiscTOC).track_offsets =
        (Bincue.trackInfos demoCueTracks).map
          (fun t => (t.offset + 150) % U32SIZE) ∧
      ({ first_track := 1, last_track := 1, lead_out := 1150,
         track_offsets := [300] } : DiscTOC).lead_out =
        (Bincue.totalLengthFrames demoCueTracks (some 2352000) + 150) %
          U32SIZE) ∧
    Chd.extract_toc_from_tracks
      [{ track_num := 1, track_type := "MODE1_RAW", frames := 1000,
         frame_offset := 0 }] = none :=
  ⟨claim_C7_toc_building.2.2.1 demoCueTracks (some 2352000)
      { first_track := 1, last_track := 1, lead_out := 1150,
        track_offsets := [300] } (by decide),
    claim_C7_toc_building.2.1
      [{ track_num := 1, track_type := "MODE1_RAW", frames := 1000,
         frame_offset := 0 }] (by decide)⟩

/-! ## browse module — file entries and the two HFS-family filesystems -/

/-- Entry type (browse/entry.rs `EntryType`). -/
inductive EntryType
  | File
  | Directory
deriving DecidableEq, Repr

/-- A file or directory entry (browse/entry.rs `FileEntry`, minus the
browser-only `children` cache, which the embedded operations never
populate).  Names and paths are `List Nat`: raw bytes for classic-HFS
names, big-endian 16-bit units for extended-HFS names, with the path
separator 47. -/
structure FileEntry where
  name : List Nat
  path : List Nat
  entry_type : EntryType
  size : Nat
  location : Nat
deriving DecidableEq, Repr

/-- Model of `FileEntry::new_file`. -/
def FileEntry.new_file (name path : List Nat) (size location : Nat) :
    FileEntry :=
  { name, path, entry_type := .File, size, location }

/-- Model of `FileEntry::new_directory`. -/
def FileEntry.new_directory (name path : List Nat) (location : Nat) :
    FileEntry :=
  { name, path, entry_type := .Directory, size := 0, location }

/-- Model of `FileEntry::root`. -/
def FileEntry.root (location : Nat) : FileEntry :=
  { name := [], path := [47], entry_type := .Directory, size := 0, location }

/-- Filesystem operation errors (browse/filesystem.rs `FilesystemError`). -/
inductive FilesystemError
  | Io (msg : String)
  | NotADirectory (path : List Nat)
  | NotFound (path : List Nat)
  | Parse (msg : String)
  | Unsupported
  | InvalidData (msg : String)
deriving DecidableEq, Repr

/-- ASCII model of `str::to_lowercase` on one byte, for the sort
comparator. -/
def asciiLowerByte (b : Nat) : Nat :=
  if 65 ≤ b ∧ b ≤ 90 then b + 32 else b

/-- Lexicographic comparison of byte strings (`Ord` for Rust strings). -/
def bytesCmp : List Nat → List Nat → Ordering
  | [], [] => .eq
  | [], _ :: _ => .lt
  | _ :: _, [] => .gt
  | a :: r1, b :: r2 =>
      if a < b then .lt else if b < a then .gt else bytesCmp r1 r2

/-- The sort comparator of `list_directory_by_id` /
`list_directory_by_cnid`: directories before files, then case-insensitive
name order. -/
def entryCmp (a b : FileEntry) : Ordering :=
  match a.entry_type, b.entry_type with
  | .Directory, .File => .lt
  | .File, .Directory => .gt
  | _, _ =>
      bytesCmp (a.name.map asciiLowerByte) (b.name.map asciiLowerByte)

/-- The stable `sort_by` at the end of the directory listings, as a stable
merge sort under the comparator. -/
def sortEntries (l : List FileEntry) : List FileEntry :=
  l.mergeSort fun a b => entryCmp a b ≠ .gt

/-- The traversal bound `MAX_ATTEMPTS` of both leaf scans. -/
def MAX_ATTEMPTS : Nat := 10000

/-- Number of values of a 64-bit machine integer (`usize`); used where
the catalog record loops can wrap in release mode. -/
def U64SIZE : Nat := 18446744073709551616

/-- Outcome of a Rust call that can panic: either an abort (a Rust panic,
with its message) or a normally returned `Result`. -/
inductive RustOutcome (e a : Type) where
  | aborted (msg : String)
  | returned (v : Except e a)
deriving DecidableEq, Repr

/-- One record of a classic-HFS catalog leaf (the body of the
`for i in 0..num_records` loop of `HfsFilesystem::process_leaf_node`);
`.ok none` models `continue` and `.error` models a Rust panic.  The
record offset `offsets_start - i*2` is usize arithmetic: at the first
index past the offset table it wraps (release mode), the wrapped
`offset_pos + 2` bounds check passes (it wraps to 0 or 1), and
`node_data[offset_pos]` panics; indices wrapping further fail the bounds
check and are skipped.  Debug mode panics at the subtraction itself, so
the panic outcome is the same. -/
def hfsLeafRecord (node_size : Nat) (node_data : List Nat)
    (parent_id : Nat) (parent_path : List Nat) (i : Nat) :
    Except String (Option FileEntry) :=
  let offsets_start := (node_size + U64SIZE - 2) % U64SIZE
  let offset_pos := (offsets_start + U64SIZE - i * 2) % U64SIZE
  if (offset_pos + 2) % U64SIZE > node_data.length then .ok none
  else if node_data.length < offset_pos + 2 then
    .error "index out of bounds"
  else
    let record_offset := beU16 node_data offset_pos
    if record_offset + 8 > node_data.length then .ok none
    else
      let key_length := node_data.getD record_offset 0
      if key_length < 6 then .ok none
      else if beU32 node_data (record_offset + 2) ≠ parent_id then .ok none
      else
        let name_length := node_data.getD (record_offset + 6) 0
        if name_length = 0 ∨ name_length > 31 then .ok none
        else
          let name_start := record_offset + 7
          if name_start + name_length > node_data.length then .ok none
          else
            let name := (node_data.drop name_start).take name_length
            let data_offset0 := record_offset + 1 + key_length
            let data_offset :=
              if data_offset0 % 2 ≠ 0 then data_offset0 + 1
              else data_offset0
            if data_offset + 2 > node_data.length then .ok none
            else
              let record_type := node_data.getD data_offset 0
              let path :=
                if parent_path = [47] then 47 :: name
                else parent_path ++ 47 :: name
              if record_type = 1 then
                if data_offset + 10 > node_data.length then .ok none
                else
                  .ok (some (FileEntry.new_directory name path
                    (beU32 node_data (data_offset + 6))))
              else if record_type = 2 then
                if data_offset + 66 > node_data.length then .ok none
                else
                  .ok (some (FileEntry.new_file name path
                    (beU32 node_data (data_offset + 62))
                    (beU32 node_data (data_offset + 20))))
              else .ok none

/-- The `for i in 0..num_records` loop shared by both `process_leaf_node`
implementations: run the per-record step on each index in order,
collecting produced entries; a step that panics aborts the loop. -/
def recordsLoop (step : Nat → Except String (Option FileEntry)) :
    Nat → Nat → List FileEntry → Except String (List FileEntry)
  | 0, _, acc => .ok acc
  | k + 1, i, acc =>
      match step i with
      | .error e => .error e
      | .ok none => recordsLoop step k (i + 1) acc
      | .ok (some entry) => recordsLoop step k (i + 1) (acc ++ [entry])

/-- Classic-HFS filesystem state (browse/hfs_fs.rs `HfsFilesystem`): the
reader is the `read_bytes` operation of the sector-reader abstraction. -/
structure HfsFilesystem where
  readBytes : Nat → Nat → Except String (List Nat)
  partition_offset : Nat
  alloc_block_size : Nat
  catalog_first_block : Nat
  catalog_extent_length : Nat
  node_size : Nat
  first_leaf_node : Nat
  alloc_block_start : Nat
  volume_name : List Nat

namespace HfsFilesystem

/-- Model of `HfsFilesystem::catalog_offset`. -/
def catalog_offset (fs : HfsFilesystem) : Nat :=
  fs.partition_offset + fs.alloc_block_start * 512 +
    fs.catalog_first_block * fs.alloc_block_size

/-- Model of `HfsFilesystem::read_node`: one node-sized read from the
catalog; an I/O failure becomes `FilesystemError::Io`. -/
def read_node (fs : HfsFilesystem) (node_num : Nat) :
    Except FilesystemError (List Nat) :=
  match fs.readBytes (fs.catalog_offset + node_num * fs.node_size)
      fs.node_size with
  | .ok d => .ok d
  | .error e => .error (.Io e)

/-- Model of `HfsFilesystem::process_leaf_node` as the entries its loop
pushes, in order; a panicking record aborts the whole call. -/
def process_leaf_node (fs : HfsFilesystem) (node_data : List Nat)
    (num_records parent_id : Nat) (parent_path : List Nat) :
    Except String (List FileEntry) :=
  recordsLoop (hfsLeafRecord fs.node_size node_data parent_id parent_path)
    num_records 0 []

/-- The `while current_node != 0 && attempts < MAX_ATTEMPTS` loop of
`list_directory_by_id`, with the remaining attempts as fuel: read the
node, follow its forward link (bytes 0..4), collect records of leaf nodes
(kind byte 8 = 0xFF, i.e. -1 as i8), and sort at exit.  A panic while
processing records aborts the scan. -/
def scanLeaves (fs : HfsFilesystem) (parent_id : Nat)
    (parent_path : List Nat) :
    Nat → Nat → List FileEntry →
      RustOutcome FilesystemError (List FileEntry)
  | 0, _, entries => .returned (.ok (sortEntries entries))
  | fuel + 1, current_node, entries =>
      if current_node = 0 then .returned (.ok (sortEntries entries))
      else
        match fs.read_node current_node with
        | .error e => .returned (.error e)
        | .ok node_data =>
            if node_data.getD 8 0 ≠ 255 then
              fs.scanLeaves parent_id parent_path fuel
                (beU32 node_data 0) entries
            else
              match fs.process_leaf_node node_data (beU16 node_data 10)
                  parent_id parent_path with
              | .error msg => .aborted msg
              | .ok recs =>
                  fs.scanLeaves parent_id parent_path fuel
                    (beU32 node_data 0) (entries ++ recs)

/-- Model of `HfsFilesystem::list_directory_by_id`. -/
def list_directory_by_id (fs : HfsFilesystem) (parent_id : Nat)
    (parent_path : List Nat) :
    RustOutcome FilesystemError (List FileEntry) :=
  fs.scanLeaves parent_id parent_path MAX_ATTEMPTS fs.first_leaf_node []

/-- Model of the `Filesystem::list_directory` implementation for HFS. -/
def list_directory (fs : HfsFilesystem) (entry : FileEntry) :
    RustOutcome FilesystemError (List FileEntry) :=
  if entry.entry_type ≠ .Directory then
    .returned (.error (.NotADirectory entry.path))
  else
    fs.list_directory_by_id
      (if entry.path = [47] then 2 else entry.location) entry.path

/-- Model of the `Filesystem::read_file` implementation for HFS: file
reads are deliberately unimplemented. -/
def read_file (fs : HfsFilesystem) (entry : FileEntry) :
    Except FilesystemError (List Nat) :=
  .error .Unsupported

/-- Model of the `Filesystem::read_file_range` implementation for HFS. -/
def read_file_range (fs : HfsFilesystem) (entry : FileEntry)
    (offset : Nat) (length : Nat) : Except FilesystemError (List Nat) :=
  .error .Unsupported

end HfsFilesystem

/-- One record of an extended-HFS catalog leaf (the loop body of
`HfsPlusFilesystem::process_leaf_node`); `.ok none` models `continue` and
`.error` models a Rust panic — the record-offset usize wrap panics at the
first index past the offset table exactly as in the classic-HFS loop.
The name is the list of big-endian 16-bit units (`decode_utf16_be` is
modelled as the unit list). -/
def hfsplusLeafRecord (node_size : Nat) (node_data : List Nat)
    (parent_cnid : Nat) (parent_path : List Nat) (i : Nat) :
    Except String (Option FileEntry) :=
  let offsets_start := (node_size + U64SIZE - 2) % U64SIZE
  let offset_pos := (offsets_start + U64SIZE - i * 2) % U64SIZE
  if (offset_pos + 2) % U64SIZE > node_data.length then .ok none
  else if node_data.length < offset_pos + 2 then
    .error "index out of bounds"
  else
    let record_offset := beU16 node_data offset_pos
    if record_offset + 10 > node_data.length then .ok none
    else
      let key_length := beU16 node_data record_offset
      if key_length < 6 then .ok none
      else if beU32 node_data (record_offset + 2) ≠ parent_cnid then
        .ok none
      else
        let name_length := beU16 node_data (record_offset + 6)
        if name_length = 0 then .ok none
        else
          let name_start := record_offset + 8
          if name_start + name_length * 2 > node_data.length then .ok none
          else
            let name := (List.range name_length).map fun j =>
              beU16 node_data (name_start + 2 * j)
            if name.isEmpty then .ok none
            else
              let data_offset := record_offset + 2 + key_length
              if data_offset + 4 > node_data.length then .ok none
              else
                let record_type := beU16 node_data data_offset
                let path :=
                  if parent_path = [47] then 47 :: name
                  else parent_path ++ 47 :: name
                if record_type = 1 then
                  if data_offset + 12 > node_data.length then .ok none
                  else
                    .ok (some (FileEntry.new_directory name path
                      (beU32 node_data (data_offset + 8))))
                else if record_type = 2 then
                  if data_offset + 96 > node_data.length then .ok none
                  else
                    .ok (some (FileEntry.new_file name path
                      (beU64 node_data (data_offset + 88))
                      (beU32 node_data (data_offset + 8))))
                else .ok none

/-- Extended-HFS filesystem state (browse/hfsplus_fs.rs
`HfsPlusFilesystem`). -/
structure HfsPlusFilesystem where
  readBytes : Nat → Nat → Except String (List Nat)
  partition_offset : Nat
  block_size : Nat
  catalog_start_block : Nat
  catalog_block_count : Nat
  node_size : Nat
  first_leaf_node : Nat
  volume_name : List Nat

namespace HfsPlusFilesystem

/-- Model of `HfsPlusFilesystem::catalog_offset`. -/
def catalog_offset (fs : HfsPlusFilesystem) : Nat :=
  fs.partition_offset + fs.catalog_start_block * fs.block_size

/-- Model of `HfsPlusFilesystem::read_node`. -/
def read_node (fs : HfsPlusFilesystem) (node_num : Nat) :
    Except FilesystemError (List Nat) :=
  match fs.readBytes (fs.catalog_offset + node_num * fs.node_size)
      fs.node_size with
  | .ok d => .ok d
  | .error e => .error (.Io e)

/-- Model of `HfsPlusFilesystem::process_leaf_node` as the entries its
loop pushes, in order; a panicking record aborts the whole call. -/
def process_leaf_node (fs : HfsPlusFilesystem) (node_data : List Nat)
    (num_records parent_cnid : Nat) (parent_path : List Nat) :
    Except String (List FileEntry) :=
  recordsLoop
    (hfsplusLeafRecord fs.node_size node_data parent_cnid parent_path)
    num_records 0 []

/-- The bounded leaf-list loop of `list_directory_by_cnid`, identical in
shape to the classic-HFS one. -/
def scanLeaves (fs : HfsPlusFilesystem) (parent_cnid : Nat)
    (parent_path : List Nat) :
    Nat → Nat → List FileEntry →
      RustOutcome FilesystemError (List FileEntry)
  | 0, _, entries => .returned (.ok (sortEntries entries))
  | fuel + 1, current_node, entries =>
      if current_node = 0 then .returned (.ok (sortEntries entries))
      else
        match fs.read_node current_node with
        | .error e => .returned (.error e)
        | .ok node_data =>
            if node_data.getD 8 0 ≠ 255 then
              fs.scanLeaves parent_cnid parent_path fuel
                (beU32 node_data 0) entries
            else
              match fs.process_leaf_node node_data (beU16 node_data 10)
                  parent_cnid parent_path with
              | .error msg => .aborted msg
              | .ok recs =>
                  fs.scanLeaves parent_cnid parent_path fuel
                    (beU32 node_data 0) (entries ++ recs)

/-- Model of `HfsPlusFilesystem::list_directory_by_cnid`. -/
def list_directory_by_cnid (fs : HfsPlusFilesystem) (parent_cnid : Nat)
    (parent_path : List Nat) :
    RustOutcome FilesystemError (List FileEntry) :=
  fs.scanLeaves parent_cnid parent_path MAX_ATTEMPTS fs.first_leaf_node []

end HfsPlusFilesystem

theorem flatten_replicate_nil (k : Nat) :
    (List.replicate k ([] : List FileEntry)).flatten = [] := by
  induction k with
  | zero => rfl
  | succ m ih => simp [List.replicate_succ, ih]

theorem hfs_scanLeaves_cycle (fs : HfsFilesystem) (pid : Nat)
    (ppath : List Nat) (n : Nat) (d : List Nat) (per : List FileEntry)
    (hread : fs.read_node n = .ok d) (hn : n ≠ 0)
    (hnext : beU32 d 0 = n)
    (hper : (if d.getD 8 0 = 255 then
        fs.process_leaf_node d (beU16 d 10) pid ppath
      else .ok []) = .ok per) (fuel : Nat) :
    ∀ acc, fs.scanLeaves pid ppath fuel n acc =
      .returned (.ok (sortEntries
        (acc ++ (List.replicate fuel per).flatten))) := by
  induction fuel with
  | zero =>
      intro acc
      simp [HfsFilesystem.scanLeaves]
  | succ m ih =>
      intro acc
      simp only [HfsFilesystem.scanLeaves]
      rw [if_neg hn, hread]
      show (if d.getD 8 0 ≠ 255 then
          fs.scanLeaves pid ppath m (beU32 d 0) acc
        else
          match fs.process_leaf_node d (beU16 d 10) pid ppath with
          | .error msg => .aborted msg
          | .ok recs =>
              fs.scanLeaves pid ppath m (beU32 d 0) (acc ++ recs)) = _
      rw [hnext]
      by_cases hk : d.getD 8 0 = 255
      · rw [if_neg (by simpa using hk)]
        rw [if_pos hk] at hper
        rw [hper]
        show fs.scanLeaves pid ppath m n (acc ++ per) = _
        rw [ih]
        congr 1
        rw [List.replicate_succ, List.flatten_cons, ← List.append_assoc]
      · rw [if_pos hk]
        rw [if_neg hk] at hper
        injection hper with hper
        subst hper
        rw [ih]
        rw [flatten_replicate_nil, flatten_replicate_nil]

theorem hfsplus_scanLeaves_cycle (fs : HfsPlusFilesystem) (pid : Nat)
    (ppath : List Nat) (n : Nat) (d : List Nat) (per : List FileEntry)
    (hread : fs.read_node n = .ok d) (hn : n ≠ 0)
    (hnext : beU32 d 0 = n)
    (hper : (if d.getD 8 0 = 255 then
        fs.process_leaf_node d (beU16 d 10) pid ppath
      else .ok []) = .ok per) (fuel : Nat) :
    ∀ acc, fs.scanLeaves pid ppath fuel n acc =
      .returned (.ok (sortEntries
        (acc ++ (List.replicate fuel per).flatten))) := by
  induction fuel with
  | zero =>
      intro acc
      simp [HfsPlusFilesystem.scanLeaves]
  | succ m ih =>
      intro acc
      simp only [HfsPlusFilesystem.scanLeaves]
      rw [if_neg hn, hread]
      show (if d.getD 8 0 ≠ 255 then
          fs.scanLeaves pid ppath m (beU32 d 0) acc
        else
          match fs.process_leaf_node d (beU16 d 10) pid ppath with
          | .error msg => .aborted msg
          | .ok recs =>
              fs.scanLeaves pid ppath m (beU32 d 0) (acc ++ recs)) = _
      rw [hnext]
      by_cases hk : d.getD 8 0 = 255
      · rw [if_neg (by simpa using hk)]
        rw [if_pos hk] at hper
        rw [hper]
        show fs.scanLeaves pid ppath m n (acc ++ per) = _
        rw [ih]
        congr 1
        rw [List.replicate_succ, List.flatten_cons, ← List.append_assoc]
      · rw [if_pos hk]
        rw [if_neg hk] at hper
        injection hper with hper
        subst hper
        rw [ih]
        rw [flatten_replicate_nil, flatten_replicate_nil]

/-- A 16-byte catalog node whose forward link points back to node 1
(bytes 0..4), with leaf kind 0xFF at byte 8 and zero records. -/
def cycleNodeData : List Nat :=
  [0, 0, 0, 1, 0, 0, 0, 0, 255, 0, 0, 0, 0, 0, 0, 0]

/-- A classic-HFS filesystem whose catalog always reads back the
self-cycling leaf node with zero records. -/
def cycleHfs : HfsFilesystem :=
  { readBytes := fun _ _ => .ok cycleNodeData
    partition_offset := 0, alloc_block_size := 512
    catalog_first_block := 0, catalog_extent_length := 0
    node_size := 16, first_leaf_node := 1, alloc_block_start := 0
    volume_name := [] }

/-- The same self-cycling 16-byte leaf node, but with num_records = 9
(bytes 10..12), one more than its offset table can hold: record index 8
drives `offsets_start - i*2` = 14 - 16 into usize underflow. -/
def overCountNodeData : List Nat :=
  [0, 0, 0, 1, 0, 0, 0, 0, 255, 0, 0, 9, 0, 0, 0, 0]

/-- A classic-HFS filesystem whose catalog always reads back the
over-counted self-cycling leaf node. -/
def overCountHfs : HfsFilesystem :=
  { readBytes := fun _ _ => .ok overCountNodeData
    partition_offset := 0, alloc_block_size := 512
    catalog_first_block := 0, catalog_extent_length := 0
    node_size := 16, first_leaf_node := 1, alloc_block_start := 0
    volume_name := [] }

/-- An extended-HFS filesystem over the same over-counted node. -/
def overCountHfsPlus : HfsPlusFilesystem :=
  { readBytes := fun _ _ => .ok overCountNodeData
    partition_offset := 0, block_size := 512
    catalog_start_block := 0, catalog_block_count := 0
    node_size := 16, first_leaf_node := 1
    volume_name := [] }

set_option maxRecDepth 40000 in
/-- Claim C8 (code bug): on a self-cycling catalog leaf whose record
count (9) overruns its 16-byte node's offset table, both directory scans
panic — the wrapped record-offset bounds check passes and the record
index is out of bounds — instead of returning the entries collected, on
the very first visited node.  With the record count in range, the scan
does return the entries collected over exactly the 10,000 bounded visits
(third conjunct, via the cycle lemma). -/
theorem claim_C8_leaf_scan_bug :
    overCountHfs.list_directory_by_id 2 [47] =
      .aborted "index out of bounds" ∧
    overCountHfsPlus.list_directory_by_cnid 2 [47] =
      .aborted "index out of bounds" ∧
    cycleHfs.list_directory_by_id 2 [47] =
      .returned (.ok (sortEntries ([] ++
        (List.replicate MAX_ATTEMPTS ([] : List FileEntry)).flatten))) :=
  ⟨by decide, by decide,
    hfs_scanLeaves_cycle cycleHfs 2 [47] 1 cycleNodeData [] (by rfl)
      (by decide) (by decide) (by decide) MAX_ATTEMPTS []⟩

/-- Tester for the distinguished unsupported-operation error: true only
for a returned `Err(Unsupported)` (a panic is not a returned error). -/
def isUnsupportedResult {a : Type} :
    RustOutcome FilesystemError a → Bool
  | .returned (.error .Unsupported) => true
  | _ => false

theorem hfs_scanLeaves_never_unsupported (fs : HfsFilesystem) (pid : Nat)
    (ppath : List Nat) (fuel : Nat) :
    ∀ cur acc,
      isUnsupportedResult (fs.scanLeaves pid ppath fuel cur acc) = false := by
  induction fuel with
  | zero =>
      intro cur acc
      rfl
  | succ m ih =>
      intro cur acc
      simp only [HfsFilesystem.scanLeaves]
      by_cases hc : cur = 0
      · rw [if_pos hc]
        rfl
      · rw [if_neg hc]
        unfold HfsFilesystem.read_node
        match fs.readBytes (fs.catalog_offset + cur * fs.node_size)
            fs.node_size with
        | .error e => rfl
        | .ok d =>
            show isUnsupportedResult
              (if d.getD 8 0 ≠ 255 then
                fs.scanLeaves pid ppath m (beU32 d 0) acc
              else
                match fs.process_leaf_node d (beU16 d 10) pid ppath with
                | .error msg => .aborted msg
                | .ok recs =>
                    fs.scanLeaves pid ppath m (beU32 d 0) (acc ++ recs)) =
              false
            by_cases hk : d.getD 8 0 = 255
            · rw [if_neg (by simpa using hk)]
              match fs.process_leaf_node d (beU16 d 10) pid ppath with
              | .error msg => rfl
              | .ok recs => exact ih ..
            · rw [if_pos hk]
              exact ih ..

/-- Claim C9: classic-HFS whole-file and ranged reads always return the
distinguished Unsupported error, never data and never another error kind,
while directory listing on the same filesystem instance never reports
Unsupported. -/
theorem claim_C9_hfs_reads_unsupported :
    (∀ (fs : HfsFilesystem) entry,
      fs.read_file entry = .error .Unsupported) ∧
    (∀ (fs : HfsFilesystem) entry offset length,
      fs.read_file_range entry offset length = .error .Unsupported) ∧
    (∀ (fs : HfsFilesystem) entry,
      isUnsupportedResult (fs.list_directory entry) = false) ∧
    (∀ (fs : HfsFilesystem) parent_id parent_path,
      isUnsupportedResult (fs.list_directory_by_id parent_id parent_path) =
        false) := by
  refine ⟨fun fs entry => rfl, fun fs entry offset length => rfl, ?_, ?_⟩
  · intro fs entry
    unfold HfsFilesystem.list_directory
    by_cases he : entry.entry_type ≠ .Directory
    · rw [if_pos he]
      rfl
    · rw [if_neg he]
      exact hfs_scanLeaves_never_unsupported ..
  · intro fs parent_id parent_path
    exact hfs_scanLeaves_never_unsupported ..

/-! ## browse/reader.rs — compressed-hunk sector reader and its cache -/

/-- The cache-independent configuration of a `ChdSectorReader`: the hunk
decode operation (`chd.hunk(i)` + `read_hunk_in`, a pure function of the
container data) and the geometry computed at construction. -/
structure ChdParams where
  hunks : Nat → Except String (List Nat)
  hunk_size : Nat
  track_frame_offset : Nat
  frame_size : Nat
  data_offset : Nat

/-- State of a `ChdSectorReader` (browse/reader.rs): the configuration
plus the single most-recently-used decoded hunk, cached by index. -/
structure ChdSectorReader where
  params : ChdParams
  cached_hunk : Option (Nat × List Nat)

namespace ChdSectorReader

/-- The decode-and-cache tail of `ChdSectorReader::read_hunk`: decode the
hunk and replace the cache slot; a decode failure leaves the cache
unchanged. -/
def fetch_hunk (s : ChdSectorReader) (hunk_index : Nat) :
    Except String (List Nat) × ChdSectorReader :=
  match s.params.hunks hunk_index with
  | .error e => (.error e, s)
  | .ok d2 => (.ok d2, { s with cached_hunk := some (hunk_index, d2) })

/-- Model of `ChdSectorReader::read_hunk`: return the cached hunk when the
index matches, otherwise decode and cache it. -/
def read_hunk (s : ChdSectorReader) (hunk_index : Nat) :
    Except String (List Nat) × ChdSectorReader :=
  match s.cached_hunk with
  | some (cached_index, d) =>
      if cached_index = hunk_index then (.ok d, s)
      else fetch_hunk s hunk_index
  | none => fetch_hunk s hunk_index

/-- Model of `ChdSectorReader::read_sector`: locate the hunk holding the
sector (`as u32` casts made explicit), slice within it, or stitch the tail
of this hunk with the head of the next; the slice panics reachable on a
short hunk are modelled as errors. -/
def read_sector (s : ChdSectorReader) (lba : Nat) :
    Except String (List Nat) × ChdSectorReader :=
  let physical_offset := s.params.track_frame_offset +
    lba * s.params.frame_size + s.params.data_offset
  let hunk_index := physical_offset / s.params.hunk_size % U32SIZE
  let offset_in_hunk := physical_offset % s.params.hunk_size
  match read_hunk s hunk_index with
  | (.error e, s1) => (.error e, s1)
  | (.ok hunk_data, s1) =>
      if offset_in_hunk + 2048 ≤ hunk_data.length then
        (.ok ((hunk_data.drop offset_in_hunk).take 2048), s1)
      else if hunk_data.length < offset_in_hunk then
        (.error "slice index out of range", s1)
      else
        match read_hunk s1 ((hunk_index + 1) % U32SIZE) with
        | (.error e, s2) => (.error e, s2)
        | (.ok next_hunk, s2) =>
            let second_part_len :=
              2048 - (hunk_data.length - offset_in_hunk)
            if second_part_len ≤ next_hunk.length then
              (.ok (hunk_data.drop offset_in_hunk ++
                next_hunk.take second_part_len), s2)
            else (.error "slice index out of range", s2)

/-- The `for i in 0..count` loop of `ChdSectorReader::read_sectors`,
extending the result with each sector and propagating errors. -/
def read_sectors_loop :
    ChdSectorReader → Nat → Nat → List Nat →
      Except String (List Nat) × ChdSectorReader
  | s, _, 0, acc => (.ok acc, s)
  | s, lba, k + 1, acc =>
      match read_sector s lba with
      | (.error e, s1) => (.error e, s1)
      | (.ok sec, s1) => read_sectors_loop s1 (lba + 1) k (acc ++ sec)

/-- Model of `ChdSectorReader::read_sectors`. -/
def read_sectors (s : ChdSectorReader) (start_lba count : Nat) :
    Except String (List Nat) × ChdSectorReader :=
  read_sectors_loop s start_lba count []

/-- Model of `ChdSectorReader::read_bytes`: read the minimal covering
sector range and slice the requested span. -/
def read_bytes (s : ChdSectorReader) (offset : Nat) (length : Nat) :
    Except String (List Nat) × ChdSectorReader :=
  let start_lba := offset / 2048
  let offset_in_sector := offset % 2048
  let end_lba := (offset + length + 2048 - 1) / 2048
  let sector_count := end_lba - start_lba
  match read_sectors s start_lba sector_count with
  | (.error e, s1) => (.error e, s1)
  | (.ok sectors, s1) =>
      if offset_in_sector + length ≤ sectors.length then
        (.ok ((sectors.drop offset_in_sector).take length), s1)
      else (.error "slice index out of range", s1)

end ChdSectorReader

namespace ChdSpec

/-- Cache-free reference reader (the specification side of claim C10): it
decodes the needed hunk on every access and carries no state. -/
def read_hunk (p : ChdParams) (hunk_index : Nat) :
    Except String (List Nat) :=
  p.hunks hunk_index

/-- Cache-free `read_sector`. -/
def read_sector (p : ChdParams) (lba : Nat) : Except String (List Nat) :=
  let physical_offset := p.track_frame_offset + lba * p.frame_size +
    p.data_offset
  let hunk_index := physical_offset / p.hunk_size % U32SIZE
  let offset_in_hunk := physical_offset % p.hunk_size
  match read_hunk p hunk_index with
  | .error e => .error e
  | .ok hunk_data =>
      if offset_in_hunk + 2048 ≤ hunk_data.length then
        .ok ((hunk_data.drop offset_in_hunk).take 2048)
      else if hunk_data.length < offset_in_hunk then
        .error "slice index out of range"
      else
        match read_hunk p ((hunk_index + 1) % U32SIZE) with
        | .error e => .error e
        | .ok next_hunk =>
            let second_part_len :=
              2048 - (hunk_data.length - offset_in_hunk)
            if second_part_len ≤ next_hunk.length then
              .ok (hunk_data.drop offset_in_hunk ++
                next_hunk.take second_part_len)
            else .error "slice index out of range"

/-- Cache-free `read_sectors` loop. -/
def read_sectors_loop (p : ChdParams) :
    Nat → Nat → List Nat → Except String (List Nat)
  | _, 0, acc => .ok acc
  | lba, k + 1, acc =>
      match read_sector p lba with
      | .error e => .error e
      | .ok sec => read_sectors_loop p (lba + 1) k (acc ++ sec)

/-- Cache-free `read_sectors`. -/
def read_sectors (p : ChdParams) (start_lba count : Nat) :
    Except String (List Nat) :=
  read_sectors_loop p start_lba count []

/-- Cache-free `read_bytes`. -/
def read_bytes (p : ChdParams) (offset : Nat) (length : Nat) :
    Except String (List Nat) :=
  let start_lba := offset / 2048
  let offset_in_sector := offset % 2048
  let end_lba := (offset + length + 2048 - 1) / 2048
  let sector_count := end_lba - start_lba
  match read_sectors p start_lba sector_count with
  | .error e => .error e
  | .ok sectors =>
      if offset_in_sector + length ≤ sectors.length then
        .ok ((sectors.drop offset_in_sector).take length)
      else .error "slice index out of range"

end ChdSpec

/-- One operation of the sector-reader interface. -/
inductive ChdOp
  | sector (lba : Nat)
  | sectors (start_lba count : Nat)
  | bytes (offset length : Nat)
deriving DecidableEq, Repr

/-- Run one interface operation on the cached reader. -/
def ChdSectorReader.runOp (s : ChdSectorReader) :
    ChdOp → Except String (List Nat) × ChdSectorReader
  | .sector lba => s.read_sector lba
  | .sectors a c => s.read_sectors a c
  | .bytes o l => s.read_bytes o l

/-- Run a sequence of interface operations on the cached reader,
collecting the results. -/
def ChdSectorReader.runOps :
    ChdSectorReader → List ChdOp →
      List (Except String (List Nat)) × ChdSectorReader
  | s, [] => ([], s)
  | s, op :: ops =>
      match s.runOp op with
      | (r, s1) =>
          match ChdSectorReader.runOps s1 ops with
          | (rs, s2) => (r :: rs, s2)

/-- Run one interface operation on the cache-free reader. -/
def ChdSpec.runOp (p : ChdParams) : ChdOp → Except String (List Nat)
  | .sector lba => ChdSpec.read_sector p lba
  | .sectors a c => ChdSpec.read_sectors p a c
  | .bytes o l => ChdSpec.read_bytes p o l

/-- Run a sequence of interface operations on the cache-free reader. -/
def ChdSpec.runOps (p : ChdParams) (ops : List ChdOp) :
    List (Except String (List Nat)) :=
  ops.map (ChdSpec.runOp p)

/-- Cache coherence: whatever the single slot holds is exactly what
decoding that hunk yields. -/
def Coherent (s : ChdSectorReader) : Prop :=
  ∀ i d, s.cached_hunk = some (i, d) → s.params.hunks i = .ok d

theorem fetch_hunk_refines (s : ChdSectorReader) (i : Nat)
    (h : Coherent s) :
    (s.fetch_hunk i).1 = s.params.hunks i ∧
    Coherent (s.fetch_hunk i).2 ∧ (s.fetch_hunk i).2.params = s.params := by
  unfold ChdSectorReader.fetch_hunk
  match hh : s.params.hunks i with
  | .error e => exact ⟨rfl, h, rfl⟩
  | .ok d2 =>
      refine ⟨rfl, ?_, rfl⟩
      intro j dj hj
      injection hj with hj
      injection hj with hj1 hj2
      subst hj1
      subst hj2
      exact hh

theorem read_hunk_refines (s : ChdSectorReader) (i : Nat)
    (h : Coherent s) :
    (s.read_hunk i).1 = s.params.hunks i ∧
    Coherent (s.read_hunk i).2 ∧ (s.read_hunk i).2.params = s.params := by
  unfold ChdSectorReader.read_hunk
  match hc : s.cached_hunk with
  | none => exact fetch_hunk_refines s i h
  | some (ci, d) =>
      show ((if ci = i then ((Except.ok d : Except String (List Nat)), s)
          else s.fetch_hunk i).1 = s.params.hunks i) ∧
        Coherent (if ci = i then
            ((Except.ok d : Except String (List Nat)), s)
          else s.fetch_hunk i).2 ∧
        (if ci = i then ((Except.ok d : Except String (List Nat)), s)
          else s.fetch_hunk i).2.params = s.params
      by_cases hci : ci = i
      · subst hci
        rw [if_pos rfl]
        exact ⟨(h ci d hc).symm, h, rfl⟩
      · rw [if_neg hci]
        exact fetch_hunk_refines s i h

theorem read_sector_refines (s : ChdSectorReader) (lba : Nat)
    (h : Coherent s) :
    (s.read_sector lba).1 = ChdSpec.read_sector s.params lba ∧
    Coherent (s.read_sector lba).2 ∧
    (s.read_sector lba).2.params = s.params := by
  unfold ChdSectorReader.read_sector ChdSpec.read_sector ChdSpec.read_hunk
  dsimp only
  obtain ⟨h1, h2, h3⟩ := read_hunk_refines s
    ((s.params.track_frame_offset + lba * s.params.frame_size +
      s.params.data_offset) / s.params.hunk_size % U32SIZE) h
  rcases hr : s.read_hunk
      ((s.params.track_frame_offset + lba * s.params.frame_size +
        s.params.data_offset) / s.params.hunk_size % U32SIZE) with ⟨r, s1⟩
  rw [hr] at h1 h2 h3
  simp only at h1 h2 h3
  rw [← h1]
  cases r with
  | error e => exact ⟨rfl, h2, h3⟩
  | ok hunk_data =>
      simp only []
      split
      · exact ⟨rfl, h2, h3⟩
      · split
        · exact ⟨rfl, h2, h3⟩
        · obtain ⟨g1, g2, g3⟩ := read_hunk_refines s1
            (((s.params.track_frame_offset + lba * s.params.frame_size +
              s.params.data_offset) / s.params.hunk_size % U32SIZE + 1) %
              U32SIZE) h2
          rcases hr2 : s1.read_hunk
              (((s.params.track_frame_offset + lba * s.params.frame_size +
                s.params.data_offset) / s.params.hunk_size % U32SIZE + 1) %
                U32SIZE) with ⟨r2, s2⟩
          rw [hr2] at g1 g2 g3
          simp only at g1 g2 g3
          rw [h3] at g1
          rw [← g1]
          cases r2 with
          | error e2 => exact ⟨rfl, g2, g3.trans h3⟩
          | ok next_hunk =>
              simp only []
              split
              · exact ⟨rfl, g2, g3.trans h3⟩
              · exact ⟨rfl, g2, g3.trans h3⟩

theorem read_sectors_loop_refines (count : Nat) :
    ∀ (s : ChdSectorReader) (lba : Nat) (acc : List Nat), Coherent s →
      (ChdSectorReader.read_sectors_loop s lba count acc).1 =
        ChdSpec.read_sectors_loop s.params lba count acc ∧
      Coherent (ChdSectorReader.read_sectors_loop s lba count acc).2 ∧
      (ChdSectorReader.read_sectors_loop s lba count acc).2.params =
        s.params := by
  induction count with
  | zero =>
      intro s lba acc h
      exact ⟨rfl, h, rfl⟩
  | succ k ih =>
      intro s lba acc h
      obtain ⟨h1, h2, h3⟩ := read_sector_refines s lba h
      simp only [ChdSectorReader.read_sectors_loop,
        ChdSpec.read_sectors_loop]
      rcases hr : s.read_sector lba with ⟨r, s1⟩
      rw [hr] at h1 h2 h3
      simp only at h1 h2 h3
      rw [← h1]
      cases r with
      | error e => exact ⟨rfl, h2, h3⟩
      | ok sec =>
          simp only []
          obtain ⟨g1, g2, g3⟩ := ih s1 (lba + 1) (acc ++ sec) h2
          rw [h3] at g1
          exact ⟨g1, g2, g3.trans h3⟩

theorem read_sectors_refines (s : ChdSectorReader) (a c : Nat)
    (h : Coherent s) :
    (s.read_sectors a c).1 = ChdSpec.read_sectors s.params a c ∧
    Coherent (s.read_sectors a c).2 ∧
    (s.read_sectors a c).2.params = s.params :=
  read_sectors_loop_refines c s a [] h

theorem read_bytes_refines (s : ChdSectorReader) (o l : Nat)
    (h : Coherent s) :
    (s.read_bytes o l).1 = ChdSpec.read_bytes s.params o l ∧
    Coherent (s.read_bytes o l).2 ∧
    (s.read_bytes o l).2.params = s.params := by
  unfold ChdSectorReader.read_bytes ChdSpec.read_bytes
  dsimp only
  obtain ⟨h1, h2, h3⟩ := read_sectors_refines s (o / 2048)
    ((o + l + 2048 - 1) / 2048 - o / 2048) h
  rcases hr : s.read_sectors (o / 2048)
      ((o + l + 2048 - 1) / 2048 - o / 2048) with ⟨r, s1⟩
  rw [hr] at h1 h2 h3
  simp only at h1 h2 h3
  rw [← h1]
  cases r with
  | error e => exact ⟨rfl, h2, h3⟩
  | ok sectors =>
      simp only []
      split
      · exact ⟨rfl, h2, h3⟩
      · exact ⟨rfl, h2, h3⟩

theorem runOp_refines (s : ChdSectorReader) (op : ChdOp) (h : Coherent s) :
    (s.runOp op).1 = ChdSpec.runOp s.params op ∧
    Coherent (s.runOp op).2 ∧ (s.runOp op).2.params = s.params := by
  cases op with
  | sector lba => exact read_sector_refines s lba h
  | sectors a c => exact read_sectors_refines s a c h
  | bytes o l => exact read_bytes_refines s o l h

/-- Claim C10: the single-slot most-recently-used hunk cache is
observationally transparent — over any sequence of read_sector /
read_sectors / read_bytes operations, a coherent cached reader returns
exactly the results of the cache-free reader that decodes the needed hunk
on every access, and stays coherent with unchanged configuration.  A
freshly constructed reader (empty cache) is trivially coherent. -/
theorem claim_C10_cache_transparent (s : ChdSectorReader)
    (ops : List ChdOp) (h : Coherent s) :
    (ChdSectorReader.runOps s ops).1 = ChdSpec.runOps s.params ops ∧
    Coherent (ChdSectorReader.runOps s ops).2 ∧
    (ChdSectorReader.runOps s ops).2.params = s.params := by
  induction ops generalizing s with
  | nil => exact ⟨rfl, h, rfl⟩
  | cons op ops ih =>
      obtain ⟨h1, h2, h3⟩ := runOp_refines s op h
      simp only [ChdSectorReader.runOps, ChdSpec.runOps, List.map]
      rcases hr : s.runOp op with ⟨r, s1⟩
      rw [hr] at h1 h2 h3
      simp only at h1 h2 h3
      obtain ⟨g1, g2, g3⟩ := ih s1 h2
      rcases hr2 : ChdSectorReader.runOps s1 ops with ⟨rs, s2⟩
      rw [hr2] at g1 g2 g3
      simp only at g1 g2 g3
      refine ⟨?_, g2, g3.trans h3⟩
      simp only []
      rw [h1, g1, h3]
      rfl

/-- A concrete hunk store: every hunk decodes to 4096 sevens. -/
def demoChdParams : ChdParams :=
  { hunks := fun _ => .ok (List.replicate 4096 7)
    hunk_size := 4096, track_frame_offset := 0, frame_size := 2448,
    data_offset := 16 }

/-- Witness for claim C10: a freshly opened reader over the concrete hunk
store, on a sector read followed by a byte-range read. -/
theorem claim_C10_cache_transparent_witness :
    (ChdSectorReader.runOps
        { params := demoChdParams, cached_hunk := none }
        [ChdOp.sector 0, ChdOp.bytes 0 4]).1 =
      ChdSpec.runOps demoChdParams [ChdOp.sector 0, ChdOp.bytes 0 4] ∧
    Coherent (ChdSectorReader.runOps
        { params := demoChdParams, cached_hunk := none }
        [ChdOp.sector 0, ChdOp.bytes 0 4]).2 ∧
    (ChdSectorReader.runOps
        { params := demoChdParams, cached_hunk := none }
        [ChdOp.sector 0, ChdOp.bytes 0 4]).2.params = demoChdParams :=
  claim_C10_cache_transparent
    { params := demoChdParams, cached_hunk := none }
    [ChdOp.sector 0, ChdOp.bytes 0 4] (fun i d hd => nomatch hd)
